import Mathlib

/-!
Verification development for the pdslib private data service core
(dom/privateattribution/pdslib). The Rust source is shallowly embedded:
f64 values are modelled as rationals (ℚ), HashMaps as association lists,
fallible code returns Option, and stateful code threads explicit storage
states. Definitions mirror the source files named in their doc comments.
-/

namespace Pdslib

/-- Machine epsilon `f64::EPSILON = 2^-52`, used by `accounting.rs` to detect
near-zero noise scales. -/
def f64Epsilon : ℚ := 1 / 2 ^ 52

/-- `PureDPBudget` from `budget/pure_dp_filter.rs`: a pure-DP epsilon, either
infinite (no capacity cap / noiseless debug requests) or a finite scalar. -/
inductive PureDPBudget where
  | Infinite : PureDPBudget
  | Epsilon (eps : ℚ) : PureDPBudget
  deriving DecidableEq, Repr

/-- `FilterStatus` from `budget/traits.rs`. -/
inductive FilterStatus where
  | Continue : FilterStatus
  | OutOfBudget : FilterStatus
  deriving DecidableEq, Repr

/-- `PureDPBudgetFilter` from `budget/pure_dp_filter.rs`: this revision stores
the remaining budget directly. -/
structure PureDPBudgetFilter where
  remaining_budget : PureDPBudget
  deriving DecidableEq, Repr

namespace PureDPBudgetFilter

/-- `PureDPBudgetFilter::new` (`pure_dp_filter.rs` line 74): a fresh filter
holds its full capacity as remaining budget. -/
def new (capacity : PureDPBudget) : PureDPBudgetFilter :=
  { remaining_budget := capacity }

/-- `PureDPBudgetFilter::can_consume` (`pure_dp_filter.rs` lines 81-90):
infinite remaining accepts anything; finite remaining accepts a finite
request iff `requested <= remaining`, and rejects an infinite request. -/
def can_consume (f : PureDPBudgetFilter) (budget : PureDPBudget) : Bool :=
  match f.remaining_budget, budget with
  | PureDPBudget.Infinite, _ => true
  | PureDPBudget.Epsilon remaining, PureDPBudget.Epsilon requested =>
      requested ≤ remaining
  | PureDPBudget.Epsilon _, PureDPBudget.Infinite => false

/-- `PureDPBudgetFilter::try_consume` (`pure_dp_filter.rs` lines 92-125):
on success deducts in place, otherwise leaves the filter unchanged. Returns
the status together with the updated filter (the Rust `&mut self`). -/
def try_consume (f : PureDPBudgetFilter) (budget : PureDPBudget) :
    FilterStatus × PureDPBudgetFilter :=
  match f.remaining_budget with
  | PureDPBudget.Infinite => (FilterStatus.Continue, f)
  | PureDPBudget.Epsilon remaining_epsilon =>
      match budget with
      | PureDPBudget.Epsilon requested_epsilon =>
          if requested_epsilon ≤ remaining_epsilon then
            (FilterStatus.Continue,
              { remaining_budget :=
                  PureDPBudget.Epsilon (remaining_epsilon - requested_epsilon) })
          else
            (FilterStatus.OutOfBudget, f)
      | PureDPBudget.Infinite => (FilterStatus.OutOfBudget, f)

end PureDPBudgetFilter

/-- Subtraction of a finite epsilon from a budget, with infinity absorbing
(spec §3: `remaining = capacity − consumed`, `∞` absorbing). Used only to
state theorems about `try_consume`. -/
def PureDPBudget.subEps : PureDPBudget → ℚ → PureDPBudget
  | PureDPBudget.Infinite, _ => PureDPBudget.Infinite
  | PureDPBudget.Epsilon r, q => PureDPBudget.Epsilon (r - q)

/-- Association-list lookup (first match), modelling `HashMap::get`. -/
def alLookup {α β : Type} [DecidableEq α] : List (α × β) → α → Option β
  | [], _ => none
  | p :: rest, k => if p.1 = k then some p.2 else alLookup rest k

/-- Association-list insert-or-replace, modelling `HashMap::insert`. -/
def alInsert {α β : Type} [DecidableEq α] (l : List (α × β)) (k : α) (v : β) :
    List (α × β) :=
  if l.any (fun p => p.1 = k) then
    l.map (fun p => if p.1 = k then (k, v) else p)
  else l ++ [(k, v)]

/-- Distinct keys of an association list, modelling `HashMap::keys`. -/
def alKeys {α β : Type} [DecidableEq α] (l : List (α × β)) : List α :=
  (l.map Prod.fst).eraseDups

/-- `FilterId` from `pds/quotas.rs`: the four filter kinds, tagged by epoch
and (for three of them) a URI. -/
inductive FilterId (E U : Type) where
  | Nc (epoch : E) (querier_uri : U)
  | C (epoch : E)
  | QTrigger (epoch : E) (trigger_uri : U)
  | QSource (epoch : E) (source_uri : U)
  deriving DecidableEq

/-- The epoch component shared by all four `FilterId` variants. -/
def FilterId.epoch : FilterId E U → E
  | .Nc e _ => e
  | .C e => e
  | .QTrigger e _ => e
  | .QSource e _ => e

/-- `StaticCapacities` from `pds/quotas.rs`: one default capacity per filter
kind. -/
structure StaticCapacities where
  nc : PureDPBudget
  c : PureDPBudget
  qtrigger : PureDPBudget
  qsource : PureDPBudget

/-- `StaticCapacities::capacity` (`pds/quotas.rs` lines 78-88): pattern-match
on the filter-id variant. -/
def StaticCapacities.capacity (caps : StaticCapacities) :
    FilterId E U → PureDPBudget
  | .Nc _ _ => caps.nc
  | .C _ => caps.c
  | .QTrigger _ _ => caps.qtrigger
  | .QSource _ _ => caps.qsource

/-- `PdsFilterStatus` from `pds/quotas.rs`. -/
inductive PdsFilterStatus (FID : Type) where
  | Continue : PdsFilterStatus FID
  | OutOfBudget (oob_filters : List FID) : PdsFilterStatus FID
  deriving DecidableEq

/-- Filter storage state: `HashMapFilterStorage.filters`
(`budget/hashmap_filter_storage.rs`), as an association list. -/
abbrev FilterStorage (E U : Type) : Type :=
  List (FilterId E U × PureDPBudgetFilter)

namespace FilterStorage

variable {E U : Type} [DecidableEq E] [DecidableEq U]

/-- `FilterStorage::get_filter` on the hashmap backend. -/
def get_filter (st : FilterStorage E U) (fid : FilterId E U) :
    Option PureDPBudgetFilter :=
  alLookup st fid

/-- `FilterStorage::set_filter` on the hashmap backend (insert-or-replace). -/
def set_filter (st : FilterStorage E U) (fid : FilterId E U)
    (f : PureDPBudgetFilter) : FilterStorage E U :=
  alInsert st fid f

/-- `FilterStorage::get_filter_or_new` (`budget/traits.rs` lines 88-100):
the stored filter, or a fresh one with the default capacity (not
persisted). -/
def get_filter_or_new (caps : StaticCapacities) (st : FilterStorage E U)
    (fid : FilterId E U) : PureDPBudgetFilter :=
  (get_filter st fid).getD (PureDPBudgetFilter.new (caps.capacity fid))

/-- `FilterStorage::remaining_budget` (`budget/traits.rs` lines 129-139):
the stored filter's remaining budget, or the default capacity when absent. -/
def remaining_budget (caps : StaticCapacities) (st : FilterStorage E U)
    (fid : FilterId E U) : PureDPBudget :=
  (get_filter_or_new caps st fid).remaining_budget

/-- `FilterStorage::can_consume` (`budget/traits.rs` lines 104-110):
check without modifying state. -/
def can_consume (caps : StaticCapacities) (st : FilterStorage E U)
    (fid : FilterId E U) (budget : PureDPBudget) : FilterStatus :=
  if (get_filter_or_new caps st fid).can_consume budget then
    FilterStatus.Continue
  else FilterStatus.OutOfBudget

/-- `FilterStorage::try_consume` (`budget/traits.rs` lines 116-125):
get-or-materialize, attempt the consume, persist the filter regardless of
the outcome. -/
def try_consume (caps : StaticCapacities) (st : FilterStorage E U)
    (fid : FilterId E U) (budget : PureDPBudget) :
    FilterStatus × FilterStorage E U :=
  let f := get_filter_or_new caps st fid
  let sf := f.try_consume budget
  (sf.1, set_filter st fid sf.2)

end FilterStorage

/-- `ReportRequestUris` from `queries/traits.rs`. -/
structure ReportRequestUris (U : Type) where
  trigger_uri : U
  source_uris : List U
  intermediary_uris : List U
  querier_uris : List U
  deriving DecidableEq

/-- `QueryComputeResult` from `queries/traits.rs`: the bucket→intermediary
mapping together with the uri→report mapping. -/
structure QueryComputeResult (U R : Type) where
  bucket_uri_map : List (ℕ × U)
  uri_report_map : List (U × R)

/-- `RelevantEvents` from `events/relevant_events.rs`: relevant events per
epoch. -/
structure RelevantEvents (E Ev : Type) where
  events_per_epoch : List (E × List Ev)

namespace RelevantEvents

variable {E Ev : Type} [DecidableEq E]

/-- `RelevantEvents::for_epoch`: events of the epoch, `[]` when absent. -/
def for_epoch (rel : RelevantEvents E Ev) (epoch_id : E) : List Ev :=
  (alLookup rel.events_per_epoch epoch_id).getD []

/-- `RelevantEvents::drop_epoch`: remove the epoch entirely. -/
def drop_epoch (rel : RelevantEvents E Ev) (epoch_id : E) :
    RelevantEvents E Ev :=
  ⟨rel.events_per_epoch.filter (fun p => ¬ p.1 = epoch_id)⟩

/-- `RelevantEvents::sources_for_epoch`: unique source URIs with at least one
relevant event in the epoch. `eventSource` is the `Event::event_uris().
source_uri` trait method passed explicitly. -/
def sources_for_epoch {U : Type} [DecidableEq U] (eventSource : Ev → U)
    (rel : RelevantEvents E Ev) (epoch_id : E) : List U :=
  ((rel.for_epoch epoch_id).map eventSource).eraseDups

end RelevantEvents

/-- The `EpochReportRequest` trait (`queries/traits.rs`) as a record of its
methods. The two sensitivity methods are specialized at `NormType::L1`, the
only norm the accounting call sites (`pds/accounting.rs`, `pds/core.rs`)
ever pass. `noise_scale` is the `b` of `NoiseScale::Laplace(b)`. -/
structure EpochReportRequest (E U Ev R : Type) where
  report_uris : ReportRequestUris U
  epoch_ids : List E
  compute_report : RelevantEvents E Ev → QueryComputeResult U R
  single_epoch_individual_sensitivity : R → ℚ
  single_epoch_source_individual_sensitivity : R → ℚ
  report_global_sensitivity : ℚ
  noise_scale : ℚ

/-- `compute_epoch_loss` from `pds/accounting.rs` (lines 16-56). Case 1:
no relevant events → loss 0. Otherwise the individual sensitivity is the
single-epoch L1 sensitivity when `num_epochs = 1`, else the report global
sensitivity; near-zero noise scale → infinite loss, else
sensitivity / noise scale. (`PureDPBudget::from` on a finite non-negative
f64 is `Epsilon`, and on `f64::INFINITY` is `Infinite`; the equivalent
revision in `pds/epoch_pds.rs` lines 607-653 uses the constructors
directly.) -/
def compute_epoch_loss {E U Ev R : Type}
    (request : EpochReportRequest E U Ev R) (epoch_relevant_events : List Ev)
    (computed_attribution : R) (num_epochs : ℕ) : PureDPBudget :=
  if epoch_relevant_events.isEmpty then PureDPBudget.Epsilon 0
  else
    let individual_sensitivity :=
      if num_epochs = 1 then
        request.single_epoch_individual_sensitivity computed_attribution
      else request.report_global_sensitivity
    if |request.noise_scale| < f64Epsilon then PureDPBudget.Infinite
    else PureDPBudget.Epsilon (individual_sensitivity / request.noise_scale)

/-- `compute_epoch_source_losses` from `pds/accounting.rs` (lines 60-126):
one loss per requested source. Sensitivity is 0 for a source with no
relevant events in the epoch, the single-epoch-source sensitivity when the
request has exactly one epoch and one requested source, else the report
global sensitivity; the near-zero noise-scale check applies to every
requested source. -/
def compute_epoch_source_losses {E U Ev R : Type} [DecidableEq U]
    (request : EpochReportRequest E U Ev R) (epoch_event_sources : List U)
    (computed_attribution : R) (num_epochs : ℕ) :
    List (U × PureDPBudget) :=
  let requested_sources := request.report_uris.source_uris
  let num_requested_sources := requested_sources.length
  requested_sources.foldl
    (fun per_source_losses source =>
      let individual_sensitivity : ℚ :=
        if source ∉ epoch_event_sources then 0
        else if num_epochs = 1 ∧ num_requested_sources = 1 then
          request.single_epoch_source_individual_sensitivity
            computed_attribution
        else request.report_global_sensitivity
      if |request.noise_scale| < f64Epsilon then
        alInsert per_source_losses source PureDPBudget.Infinite
      else
        alInsert per_source_losses source
          (PureDPBudget.Epsilon (individual_sensitivity / request.noise_scale)))
    []

/-- `PrivateDataServiceCore::filters_to_consume` (`pds/core.rs` lines
183-213): the `Nc` filter of each querier, the `QTrigger` and `C` filters,
all at the device-epoch loss, then one `QSource` filter per source loss. -/
def filters_to_consume {E U : Type} [DecidableEq E] [DecidableEq U]
    (epoch_id : E) (loss : PureDPBudget)
    (source_losses : List (U × PureDPBudget)) (uris : ReportRequestUris U) :
    List (FilterId E U × PureDPBudget) :=
  let device_epoch_filter_ids :=
    uris.querier_uris.map (fun q => FilterId.Nc epoch_id q)
      ++ [FilterId.QTrigger epoch_id uris.trigger_uri, FilterId.C epoch_id]
  let base := device_epoch_filter_ids.foldl
    (fun m fid => alInsert m fid loss) []
  source_losses.foldl
    (fun m p => alInsert m (FilterId.QSource epoch_id p.1) p.2) base

/-- Inner loop of `PrivateDataServiceCore::deduct_budget` (`pds/core.rs`
lines 226-236): walk the filter set, dry-running (`can_consume`) or
committing (`try_consume`), collecting out-of-budget filter ids. -/
def deduct_budget_go {E U : Type} [DecidableEq E] [DecidableEq U]
    (caps : StaticCapacities) (dry_run : Bool) :
    List (FilterId E U × PureDPBudget) → FilterStorage E U →
    FilterStorage E U × List (FilterId E U)
  | [], st => (st, [])
  | p :: rest, st =>
      let step :=
        if dry_run then (FilterStorage.can_consume caps st p.1 p.2, st)
        else FilterStorage.try_consume caps st p.1 p.2
      let next := deduct_budget_go caps dry_run rest step.2
      (next.1,
        (if step.1 = FilterStatus.OutOfBudget then [p.1] else []) ++ next.2)

/-- `PrivateDataServiceCore::deduct_budget` (`pds/core.rs` lines 217-244):
the whole operation is `OutOfBudget` when any filter was. -/
def deduct_budget {E U : Type} [DecidableEq E] [DecidableEq U]
    (caps : StaticCapacities) (st : FilterStorage E U)
    (fl : List (FilterId E U × PureDPBudget)) (dry_run : Bool) :
    FilterStorage E U × PdsFilterStatus (FilterId E U) :=
  let r := deduct_budget_go caps dry_run fl st
  (r.1,
    if r.2 = [] then PdsFilterStatus.Continue
    else PdsFilterStatus.OutOfBudget r.2)

/-- `PdsReport` from `pds/private_data_service.rs`. -/
structure PdsReport (R FID : Type) where
  filtered_report : R
  unfiltered_report : R
  oob_filters : List FID
  deriving DecidableEq

/-- The per-epoch filter set built by `compute_report`'s epoch loop
(`pds/core.rs` lines 92-118), as a function of the relevant events at the
epoch's turn (steps 1-4 of the loop body). -/
def epoch_filter_set {E U Ev R : Type} [DecidableEq E] [DecidableEq U]
    (request : EpochReportRequest E U Ev R) (eventSource : Ev → U)
    (rel : RelevantEvents E Ev) (unfiltered_report : R) (num_epochs : ℕ)
    (epoch_id : E) : List (FilterId E U × PureDPBudget) :=
  filters_to_consume epoch_id
    (compute_epoch_loss request (rel.for_epoch epoch_id) unfiltered_report
      num_epochs)
    (compute_epoch_source_losses request
      (RelevantEvents.sources_for_epoch eventSource rel epoch_id)
      unfiltered_report num_epochs)
    request.report_uris

/-- The epoch loop of `PrivateDataServiceCore::compute_report`
(`pds/core.rs` lines 90-148): per epoch, compute losses and the filter set,
dry-run (Phase 1), commit on success (Phase 2) or drop the epoch's events
and record the out-of-budget filter ids. A Phase-2 failure after Phase-1
success is the `panic!` at line 135, modelled as `none`. -/
def compute_report_epoch_loop {E U Ev R : Type} [DecidableEq E]
    [DecidableEq U] (caps : StaticCapacities) (eventSource : Ev → U)
    (request : EpochReportRequest E U Ev R) (num_epochs : ℕ)
    (unfiltered_report : R) :
    List E → FilterStorage E U → RelevantEvents E Ev →
    List (FilterId E U) →
    Option (FilterStorage E U × RelevantEvents E Ev × List (FilterId E U))
  | [], st, rel, oob => some (st, rel, oob)
  | epoch_id :: rest, st, rel, oob =>
      let fl := epoch_filter_set request eventSource rel unfiltered_report
        num_epochs epoch_id
      let dry := deduct_budget caps st fl true
      match dry.2 with
      | PdsFilterStatus.Continue =>
          let commit := deduct_budget caps dry.1 fl false
          if commit.2 = PdsFilterStatus.Continue then
            compute_report_epoch_loop caps eventSource request num_epochs
              unfiltered_report rest commit.1 rel oob
          else none
      | PdsFilterStatus.OutOfBudget filters =>
          compute_report_epoch_loop caps eventSource request num_epochs
            unfiltered_report rest dry.1 (rel.drop_epoch epoch_id)
            (oob ++ filters)

/-- `PrivateDataServiceCore::is_optimization_query` (`pds/core.rs` lines
246-260): at least 3 keys in the uri→report mapping. -/
def is_optimization_query {U R : Type} [DecidableEq U]
    (site_to_report_mapping : List (U × R)) : Bool :=
  3 ≤ (alKeys site_to_report_mapping).length

/-- `PrivateDataServiceCore::calculate_optimization_query` (`pds/core.rs`
lines 262-323): when the filtered result's bucket→intermediary mapping is
non-empty, one `PdsReport` per intermediary present in the *unfiltered*
result's uri→report map, with both report fields taken from that unfiltered
entry; otherwise the empty map. -/
def calculate_optimization_query {E U Ev R : Type} [DecidableEq E]
    [DecidableEq U] (request : EpochReportRequest E U Ev R)
    (unfiltered_result filtered_result : QueryComputeResult U R)
    (oob_filters : List (FilterId E U)) :
    List (U × PdsReport R (FilterId E U)) :=
  let intermediary_uris := request.report_uris.intermediary_uris
  if filtered_result.bucket_uri_map.isEmpty then []
  else
    intermediary_uris.foldl
      (fun intermediary_reports intermediary_uri =>
        match alLookup unfiltered_result.uri_report_map intermediary_uri with
        | some intermediary_filtered_report =>
            alInsert intermediary_reports intermediary_uri
              { filtered_report := intermediary_filtered_report,
                unfiltered_report := intermediary_filtered_report,
                oob_filters := oob_filters }
        | none => intermediary_reports)
      []

/-- `PrivateDataServiceCore::compute_report` (`pds/core.rs` lines 63-179).
`none` models the panics (`unimplemented!` for multi-querier requests, the
`expect`/`unwrap` calls, and the Phase-2 invariant violation). Returns the
uri→`PdsReport` map together with the final filter storage. -/
def compute_report_core {E U Ev R : Type} [DecidableEq E] [DecidableEq U]
    (caps : StaticCapacities) (eventSource : Ev → U)
    (request : EpochReportRequest E U Ev R) (st : FilterStorage E U)
    (relevant_events : RelevantEvents E Ev) :
    Option (List (U × PdsReport R (FilterId E U)) × FilterStorage E U) :=
  let uris := request.report_uris
  if uris.querier_uris.length > 1 then none
  else
    match uris.querier_uris.head? with
    | none => none
    | some querier_uri =>
      let num_epochs := request.epoch_ids.length
      let unfiltered_result := request.compute_report relevant_events
      match alLookup unfiltered_result.uri_report_map querier_uri with
      | none => none
      | some unfiltered_report =>
        match compute_report_epoch_loop caps eventSource request num_epochs
          unfiltered_report request.epoch_ids st relevant_events [] with
        | none => none
        | some (st', rel', oob_filters) =>
          let filtered_result := request.compute_report rel'
          match alLookup filtered_result.uri_report_map querier_uri with
          | none => none
          | some filtered_report =>
            if is_optimization_query filtered_result.uri_report_map then
              some (calculate_optimization_query request unfiltered_result
                filtered_result oob_filters, st')
            else
              some ([(querier_uri,
                { filtered_report := filtered_report,
                  unfiltered_report := unfiltered_report,
                  oob_filters := oob_filters })], st')

/-- `PassivePrivacyLossRequest` from `queries/traits.rs`. -/
structure PassivePrivacyLossRequest (E U : Type) where
  epoch_ids : List E
  privacy_budget : PureDPBudget
  uris : ReportRequestUris U

/-- The epoch loop of `PrivateDataService::account_for_passive_privacy_loss`
(`pds/private_data_service.rs` lines 97-138): per epoch, dry-run the filter
set (built with empty source losses); on failure return the status
immediately, otherwise commit and continue. The Phase-2 invariant violation
error is modelled as `none`. -/
def account_for_passive_privacy_loss_loop {E U : Type} [DecidableEq E]
    [DecidableEq U] (caps : StaticCapacities) (privacy_budget : PureDPBudget)
    (uris : ReportRequestUris U) :
    List E → FilterStorage E U →
    Option (FilterStorage E U × PdsFilterStatus (FilterId E U))
  | [], st => some (st, PdsFilterStatus.Continue)
  | epoch_id :: rest, st =>
      let fl := filters_to_consume epoch_id privacy_budget [] uris
      let dry := deduct_budget caps st fl true
      match dry.2 with
      | PdsFilterStatus.Continue =>
          let commit := deduct_budget caps dry.1 fl false
          if commit.2 = PdsFilterStatus.Continue then
            account_for_passive_privacy_loss_loop caps privacy_budget uris
              rest commit.1
          else none
      | PdsFilterStatus.OutOfBudget filters =>
          some (dry.1, PdsFilterStatus.OutOfBudget filters)

/-- `PrivateDataService::account_for_passive_privacy_loss`
(`pds/private_data_service.rs` lines 97-138). -/
def account_for_passive_privacy_loss {E U : Type} [DecidableEq E]
    [DecidableEq U] (caps : StaticCapacities)
    (request : PassivePrivacyLossRequest E U) (st : FilterStorage E U) :
    Option (FilterStorage E U × PdsFilterStatus (FilterId E U)) :=
  account_for_passive_privacy_loss_loop caps request.privacy_budget
    request.uris request.epoch_ids st

/-- `HistogramReport` from `queries/histogram.rs`: bucket-key → accumulated
value (bucket keys are `u64`, modelled as ℕ). -/
structure HistogramReport where
  bin_values : List (ℕ × ℚ)
  deriving DecidableEq

/-- `*bin_values.entry(bin).or_default() += value` (`queries/histogram.rs`
line 179) on the association-list model of the bins map. -/
def alAddTo {α : Type} [DecidableEq α] (l : List (α × ℚ)) (k : α) (v : ℚ) :
    List (α × ℚ) :=
  if l.any (fun p => p.1 = k) then
    l.map (fun p => if p.1 = k then (p.1, p.2 + v) else p)
  else l ++ [(k, v)]

/-- The attribution loop of the histogram `compute_report`
(`queries/histogram.rs` lines 166-184): accumulate `(event, value)` pairs
into bins; when the cumulative total would strictly exceed the L1 cap
(`attributable_value`, the `HistogramRequest::report_global_sensitivity` of
that revision), stop and return the bins accumulated so far, excluding the
offending event. -/
def histogram_attribution_loop {Ev : Type} (attributable_value : ℚ)
    (bucket_key : Ev → ℕ) :
    List (Ev × ℚ) → ℚ → List (ℕ × ℚ) → List (ℕ × ℚ)
  | [], _, bin_values => bin_values
  | (event, value) :: rest, total_value, bin_values =>
      if attributable_value < total_value + value then bin_values
      else
        histogram_attribution_loop attributable_value bucket_key rest
          (total_value + value)
          (alAddTo bin_values (bucket_key event) value)

/-- The bins obtained by accumulating every pair, with no cap. Used to state
theorems about `histogram_attribution_loop`. -/
def attributed_bins {Ev : Type} (bucket_key : Ev → ℕ)
    (event_values : List (Ev × ℚ)) : List (ℕ × ℚ) :=
  event_values.foldl (fun bins p => alAddTo bins (bucket_key p.1) p.2) []

/-- Number of leading pairs whose running total stays within the cap: the
events the attribution loop accepts before halting. Used to state theorems
about `histogram_attribution_loop`. -/
def accepted_count {Ev : Type} (attributable_value : ℚ) :
    ℚ → List (Ev × ℚ) → ℕ
  | _, [] => 0
  | total_value, (_, value) :: rest =>
      if attributable_value < total_value + value then 0
      else accepted_count attributable_value (total_value + value) rest + 1

/-- `EventUris` from `events/traits.rs`. -/
structure EventUris (U : Type) where
  source_uri : U
  trigger_uris : List U
  intermediary_uris : List U
  querier_uris : List U
  deriving DecidableEq

/-- `PpaEvent` from `events/ppa_event.rs`. -/
structure PpaEvent (U : Type) where
  id : ℕ
  timestamp : ℕ
  epoch_number : ℕ
  histogram_index : ℕ
  uris : EventUris U
  filter_data : ℕ
  deriving DecidableEq

/-- `Event::event_uris().source_uri` for `PpaEvent`. -/
def PpaEvent.source_uri {U : Type} (e : PpaEvent U) : U :=
  e.uris.source_uri

/-- `PpaRelevantEventSelector` from `queries/ppa_histogram.rs`. -/
structure PpaRelevantEventSelector (U : Type) where
  report_request_uris : ReportRequestUris U
  is_matching_event : ℕ → Bool
  bucket_intermediary_mapping : List (ℕ × U)

/-- `PpaHistogramConfig` from `queries/ppa_histogram.rs`. -/
structure PpaHistogramConfig where
  start_epoch : ℕ
  end_epoch : ℕ
  attributable_value : ℚ
  max_attributable_value : ℚ
  requested_epsilon : ℚ
  histogram_size : ℕ

/-- `PpaHistogramRequest` from `queries/ppa_histogram.rs` (the
`AttributionLogic` field is always `LastTouch` and is left implicit). -/
structure PpaHistogramRequest (U : Type) where
  start_epoch : ℕ
  end_epoch : ℕ
  attributable_value : ℚ
  laplace_noise_scale : ℚ
  histogram_size : ℕ
  relevant_event_selector : PpaRelevantEventSelector U

namespace PpaHistogramRequest

variable {U : Type} [DecidableEq U]

/-- `PpaHistogramRequest::new` (`queries/ppa_histogram.rs` lines 128-158):
reject `requested_epsilon <= 0`, strictly negative sensitivity values and
`histogram_size == 0`; derive the Laplace noise scale as
`2 * max_attributable_value / requested_epsilon`. -/
def new (config : PpaHistogramConfig)
    (relevant_event_selector : PpaRelevantEventSelector U) :
    Except String (PpaHistogramRequest U) :=
  if config.requested_epsilon ≤ 0 then
    Except.error "epsilon scale must be > 0"
  else if config.attributable_value < 0 ∨ config.max_attributable_value < 0
  then Except.error "sensitivity values must be >= 0"
  else if config.histogram_size = 0 then
    Except.error "histogram_size must be greater than 0"
  else
    let query_global_sensitivity := config.max_attributable_value * 2
    Except.ok
      { start_epoch := config.start_epoch,
        end_epoch := config.end_epoch,
        attributable_value := config.attributable_value,
        laplace_noise_scale :=
          query_global_sensitivity / config.requested_epsilon,
        histogram_size := config.histogram_size,
        relevant_event_selector := relevant_event_selector }

/-- `PpaHistogramRequest::epoch_ids` (`queries/ppa_histogram.rs` lines
324-326): `(start_epoch..=end_epoch).rev()`. -/
def epoch_ids (r : PpaHistogramRequest U) : List ℕ :=
  (List.range' r.start_epoch (r.end_epoch + 1 - r.start_epoch)).reverse

end PpaHistogramRequest

/-- The epoch scan of `PpaHistogramRequest::event_values`
(`queries/ppa_histogram.rs` lines 234-263): walk the epochs in the given
order; in each epoch scan the events most-recent-first (reverse insertion
order) and return the first event whose `histogram_index` is within the
histogram size, logging and skipping out-of-range events; when an epoch
yields nothing, continue with the following epochs. -/
def ppa_find_last_touch {U : Type} (histogram_size : ℕ)
    (rel : RelevantEvents ℕ (PpaEvent U)) : List ℕ → Option (PpaEvent U)
  | [] => none
  | epoch_id :: rest =>
      match (rel.for_epoch epoch_id).reverse.find?
        (fun event => decide (event.histogram_index < histogram_size)) with
      | some event => some event
      | none => ppa_find_last_touch histogram_size rel rest

namespace PpaHistogramRequest

variable {U : Type} [DecidableEq U]

/-- `PpaHistogramRequest::event_values` (`queries/ppa_histogram.rs` lines
226-267): last-touch attribution of the whole `attributable_value` to the
event found by the epoch scan, or no attribution at all. -/
def event_values (r : PpaHistogramRequest U)
    (rel : RelevantEvents ℕ (PpaEvent U)) : List (PpaEvent U × ℚ) :=
  match ppa_find_last_touch r.histogram_size rel r.epoch_ids with
  | some event => [(event, r.attributable_value)]
  | none => []

/-- `PpaHistogramRequest::filter_report_for_intermediary`
(`queries/ppa_histogram.rs` lines 273-305): `none` when no bucket is mapped
to the intermediary, otherwise the report restricted to the intermediary's
buckets. -/
def filter_report_for_intermediary (r : PpaHistogramRequest U)
    (report : HistogramReport) (intermediary_uri : U) :
    Option HistogramReport :=
  let intermediary_buckets :=
    (r.relevant_event_selector.bucket_intermediary_mapping.filter
      (fun p => p.2 = intermediary_uri)).map Prod.fst
  if intermediary_buckets.isEmpty then none
  else
    some ⟨report.bin_values.filter
      (fun p => decide (p.1 ∈ intermediary_buckets))⟩

/-- The histogram `compute_report` (`queries/histogram.rs` lines 144-220)
instantiated at the PPA request: attribute values through the capped loop,
map the full report to the first querier URI, add each intermediary's
filtered view (empty when `filter_report_for_intermediary` is `none`), and
pair the uri→report map with the bucket→intermediary mapping. The source
indexes `querier_uris[0]`; an empty querier list (a panic in Rust, which
`compute_report_core` rules out before this is called) contributes no
querier entry. -/
def compute_report (r : PpaHistogramRequest U)
    (rel : RelevantEvents ℕ (PpaEvent U)) :
    QueryComputeResult U HistogramReport :=
  let report : HistogramReport :=
    ⟨histogram_attribution_loop r.attributable_value
      (fun e => e.histogram_index) (r.event_values rel) 0 []⟩
  let site0 : List (U × HistogramReport) :=
    match r.relevant_event_selector.report_request_uris.querier_uris.head?
    with
    | some querier_uri => [(querier_uri, report)]
    | none => []
  let site := r.relevant_event_selector.report_request_uris.intermediary_uris
    |>.foldl
      (fun m intermediary_uri =>
        match r.filter_report_for_intermediary report intermediary_uri with
        | some filtered_report => alInsert m intermediary_uri filtered_report
        | none => alInsert m intermediary_uri ⟨[]⟩)
      site0
  ⟨r.relevant_event_selector.bucket_intermediary_mapping, site⟩

/-- L1 single-epoch individual sensitivity of a histogram report
(`queries/histogram.rs` line 229): the sum of the bin values. -/
def histogram_l1_sensitivity (report : HistogramReport) : ℚ :=
  (report.bin_values.map Prod.snd).sum

/-- The `EpochReportRequest` implementation of `PpaHistogramRequest`
(`queries/ppa_histogram.rs` lines 316-368): epoch ids most-recent-first,
L1 sensitivities as bin sums, global sensitivity `2 * attributable_value`
(`queries/histogram.rs` lines 249-257), Laplace noise scale as configured. -/
def toEpochReportRequest (r : PpaHistogramRequest U) :
    EpochReportRequest ℕ U (PpaEvent U) HistogramReport :=
  { report_uris := r.relevant_event_selector.report_request_uris,
    epoch_ids := r.epoch_ids,
    compute_report := r.compute_report,
    single_epoch_individual_sensitivity := histogram_l1_sensitivity,
    single_epoch_source_individual_sensitivity := histogram_l1_sensitivity,
    report_global_sensitivity := 2 * r.attributable_value,
    noise_scale := r.laplace_noise_scale }

end PpaHistogramRequest

/-- Whether an `Except` result is an error (`Result::is_err`). -/
def exceptIsError {ε α : Type} : Except ε α → Bool
  | Except.error _ => true
  | Except.ok _ => false

/-- The cross-epoch scan order of last-touch attribution: epochs in
`epoch_ids` order (most recent first), each epoch's events in reverse
insertion order. Used to state theorems about
`PpaHistogramRequest::event_values`. -/
def last_touch_scan_order {U : Type} (r : PpaHistogramRequest U)
    (rel : RelevantEvents ℕ (PpaEvent U)) : List (PpaEvent U) :=
  (r.epoch_ids.map (fun e => (rel.for_epoch e).reverse)).flatten

/-! ### Concrete instances used by counterexamples and witnesses -/

/-- A small abstract request over rational reports, single epoch, noise
scale 2. -/
def c2_request : EpochReportRequest ℕ String ℕ ℚ :=
  { report_uris := ⟨"shoes", ["blog"], [], ["adtech"]⟩,
    epoch_ids := [1],
    compute_report := fun _ => ⟨[], []⟩,
    single_epoch_individual_sensitivity := fun r => r,
    single_epoch_source_individual_sensitivity := fun r => r,
    report_global_sensitivity := 4,
    noise_scale := 2 }

/-- The same abstract request with a zero noise scale (debug mode). -/
def c7_request : EpochReportRequest ℕ String ℕ ℚ :=
  { report_uris := ⟨"shoes", ["blog"], [], ["adtech"]⟩,
    epoch_ids := [1],
    compute_report := fun _ => ⟨[], []⟩,
    single_epoch_individual_sensitivity := fun r => r,
    single_epoch_source_individual_sensitivity := fun r => r,
    report_global_sensitivity := 4,
    noise_scale := 0 }

/-- Event URIs shared by the concrete PPA events below. -/
def demoEventUris : EventUris String :=
  ⟨"blog", ["shoes"], ["r1", "r2"], ["adtech"]⟩

/-- Epoch-2 event whose histogram index 9 is out of range for size 4. -/
def c4_e_bad : PpaEvent String := ⟨1, 100, 2, 9, demoEventUris, 1⟩

/-- Epoch-1 event with in-range histogram index 1. -/
def c4_e_good : PpaEvent String := ⟨2, 50, 1, 1, demoEventUris, 1⟩

/-- Selector for the two-epoch last-touch scenario (no intermediaries). -/
def c4_selector : PpaRelevantEventSelector String :=
  ⟨⟨"shoes", ["blog"], [], ["adtech"]⟩, fun _ => true, []⟩

/-- Two-epoch PPA request, attributable value 100, noise scale 400,
histogram size 4. -/
def c4_request : PpaHistogramRequest String := ⟨1, 2, 100, 400, 4, c4_selector⟩

/-- Relevant events: the out-of-range event in epoch 2, the in-range one in
epoch 1. -/
def c4_rel : RelevantEvents ℕ (PpaEvent String) :=
  ⟨[(2, [c4_e_bad]), (1, [c4_e_good])]⟩

/-- A configuration with `attributable_value = 0` (and otherwise valid
fields). -/
def c8_config : PpaHistogramConfig :=
  { start_epoch := 1, end_epoch := 1, attributable_value := 0,
    max_attributable_value := 1, requested_epsilon := 1, histogram_size := 4 }

/-- Default capacities `{nc := 1, c := 20, qtrigger := 2, qsource := 5}`
(the shape of `StaticCapacities` used in `pds/epoch_pds.rs` tests). -/
def mockCapacities : StaticCapacities :=
  ⟨PureDPBudget.Epsilon 1, PureDPBudget.Epsilon 20, PureDPBudget.Epsilon 2,
    PureDPBudget.Epsilon 5⟩

/-- The URI set used by the concrete deduction scenarios. -/
def demoUris : ReportRequestUris String := ⟨"shoes", ["blog"], [], ["adtech"]⟩

/-- Single-epoch abstract request whose unfiltered querier report is the
rational 5 and whose losses exceed the `nc` and `qtrigger` capacities. -/
def c1_request : EpochReportRequest ℕ String ℕ ℚ :=
  { report_uris := demoUris,
    epoch_ids := [1],
    compute_report := fun _ => ⟨[], [("adtech", 5)]⟩,
    single_epoch_individual_sensitivity := fun r => r,
    single_epoch_source_individual_sensitivity := fun r => r,
    report_global_sensitivity := 10,
    noise_scale := 1 }

/-- One relevant event (the number 7) in epoch 1. -/
def c1_rel : RelevantEvents ℕ ℕ := ⟨[(1, [7])]⟩

/-- Event-source function for the abstract events: everything comes from
`blog`. -/
def c1_src : ℕ → String := fun _ => "blog"

/-- Passive request asking for 5 epsilon on epoch 1, more than the `nc`
capacity. -/
def c1p_request : PassivePrivacyLossRequest ℕ String :=
  ⟨[1], PureDPBudget.Epsilon 5, demoUris⟩

/-- Passive request asking for 0.7 epsilon on epochs 1 and 2. -/
def c6_request : PassivePrivacyLossRequest ℕ String :=
  ⟨[1, 2], PureDPBudget.Epsilon (7 / 10), demoUris⟩

/-- Initial storage where epoch 2's `Nc` filter has only 0.5 remaining. -/
def c6_st0 : FilterStorage ℕ String :=
  [(FilterId.Nc 2 "adtech", ⟨PureDPBudget.Epsilon (1 / 2)⟩)]

/-- Storage after committing epoch 1 of `c6_request`: epoch 2's drained
filter untouched, epoch 1's filters debited by 0.7. -/
def c6_stF : FilterStorage ℕ String :=
  [(FilterId.Nc 2 "adtech", ⟨PureDPBudget.Epsilon (1 / 2)⟩),
   (FilterId.Nc 1 "adtech", ⟨PureDPBudget.Epsilon (3 / 10)⟩),
   (FilterId.QTrigger 1 "shoes", ⟨PureDPBudget.Epsilon (13 / 10)⟩),
   (FilterId.C 1, ⟨PureDPBudget.Epsilon (193 / 10)⟩)]

/-- Selector with two intermediaries: buckets 1 and 2 mapped to `r1` and
`r2`. -/
def c5_selector : PpaRelevantEventSelector String :=
  ⟨⟨"shoes", ["blog"], ["r1", "r2"], ["adtech"]⟩, fun _ => true,
    [(1, "r1"), (2, "r2")]⟩

/-- Two-epoch PPA request with intermediaries, attributable value 100,
noise scale 400, histogram size 4. -/
def c5_request : PpaHistogramRequest String := ⟨1, 2, 100, 400, 4, c5_selector⟩

/-- Epoch-1 event in bucket 1. -/
def c5_e1 : PpaEvent String := ⟨1, 100, 1, 1, demoEventUris, 1⟩

/-- Epoch-2 event in bucket 2 (the last-touch winner before any drop). -/
def c5_e2 : PpaEvent String := ⟨2, 200, 2, 2, demoEventUris, 1⟩

/-- Relevant events for the fan-out scenario. -/
def c5_rel : RelevantEvents ℕ (PpaEvent String) :=
  ⟨[(2, [c5_e2]), (1, [c5_e1])]⟩

/-- Initial storage where epoch 2's `Nc` filter has only 0.1 remaining, so
epoch 2 is dropped for being out of budget. -/
def c5_st0 : FilterStorage ℕ String :=
  [(FilterId.Nc 2 "adtech", ⟨PureDPBudget.Epsilon (1 / 10)⟩)]

/-- Selector with two intermediaries but an *empty* bucket→intermediary
mapping. -/
def c10_selector : PpaRelevantEventSelector String :=
  ⟨⟨"shoes", ["blog"], ["r1", "r2"], ["adtech"]⟩, fun _ => true, []⟩

/-- Single-epoch PPA request with two intermediaries and an empty bucket
mapping. -/
def c10_request : PpaHistogramRequest String :=
  ⟨1, 1, 100, 400, 4, c10_selector⟩

/-- The single relevant event of the empty-bucket-mapping scenario. -/
def c10_e : PpaEvent String := ⟨1, 100, 1, 2, demoEventUris, 1⟩

/-- Relevant events for the empty-bucket-mapping scenario. -/
def c10_rel : RelevantEvents ℕ (PpaEvent String) := ⟨[(1, [c10_e])]⟩

/-- Storage after `c10_request`'s single epoch is committed (loss 1/4 per
filter against the default capacities). -/
def c10_stF : FilterStorage ℕ String :=
  [(FilterId.Nc 1 "adtech", ⟨PureDPBudget.Epsilon (3 / 4)⟩),
   (FilterId.QTrigger 1 "shoes", ⟨PureDPBudget.Epsilon (7 / 4)⟩),
   (FilterId.C 1, ⟨PureDPBudget.Epsilon (79 / 4)⟩),
   (FilterId.QSource 1 "blog", ⟨PureDPBudget.Epsilon (19 / 4)⟩)]

/-! ### Theorems -/

/-- Membership in an insert-or-replace association list comes from the new
pair or from the original list. -/
theorem mem_alInsert {α β : Type} [DecidableEq α] {l : List (α × β)} {k : α}
    {v : β} {p : α × β} (hp : p ∈ alInsert l k v) : p = (k, v) ∨ p ∈ l := by
  unfold alInsert at hp
  split at hp
  · obtain ⟨q, hq, hpq⟩ := List.mem_map.mp hp
    by_cases hqk : q.1 = k
    · left
      rw [← hpq]
      simp [hqk]
    · right
      rw [← hpq]
      simpa [hqk] using hq
  · rcases List.mem_append.mp hp with h | h
    · right
      exact h
    · left
      simpa using h

/-- Folding `alInsert _ _ Infinite` over any source list keeps every stored
loss infinite. -/
theorem foldl_alInsert_inf {U : Type} [DecidableEq U] (sources : List U) :
    ∀ acc : List (U × PureDPBudget),
      (∀ p ∈ acc, Prod.snd p = PureDPBudget.Infinite) →
      ∀ p ∈ sources.foldl (fun m s => alInsert m s PureDPBudget.Infinite) acc,
        Prod.snd p = PureDPBudget.Infinite := by
  induction sources with
  | nil => intro acc hacc p hp; exact hacc p hp
  | cons s rest ih =>
    intro acc hacc p hp
    refine ih _ ?_ p hp
    intro q hq
    rcases mem_alInsert hq with rfl | hql
    · rfl
    · exact hacc q hql

/-- C9: `try_consume` on a filter with infinite remaining budget returns
`Continue` even for an infinite request; a filter with finite remaining
budget returns `OutOfBudget` for an infinite request; `can_consume b`
succeeds iff `try_consume b` on the same filter state returns `Continue`;
a successful `try_consume` of a finite `b` reduces the remaining budget by
exactly `b` (with infinity absorbing), and a failed one leaves the filter
unchanged. -/
theorem pure_dp_filter_consume_spec :
    (∀ (f : PureDPBudgetFilter) (b : PureDPBudget),
      f.remaining_budget = PureDPBudget.Infinite →
        (f.try_consume b).1 = FilterStatus.Continue) ∧
    (∀ (f : PureDPBudgetFilter) (r : ℚ),
      f.remaining_budget = PureDPBudget.Epsilon r →
        (f.try_consume PureDPBudget.Infinite).1 = FilterStatus.OutOfBudget) ∧
    (∀ (f : PureDPBudgetFilter) (b : PureDPBudget),
      f.can_consume b = true ↔
        (f.try_consume b).1 = FilterStatus.Continue) ∧
    (∀ (f : PureDPBudgetFilter) (q : ℚ),
      (f.try_consume (PureDPBudget.Epsilon q)).1 = FilterStatus.Continue →
        (f.try_consume (PureDPBudget.Epsilon q)).2.remaining_budget =
          f.remaining_budget.subEps q) ∧
    (∀ (f : PureDPBudgetFilter) (b : PureDPBudget),
      (f.try_consume b).1 = FilterStatus.OutOfBudget →
        (f.try_consume b).2 = f) := by
  refine ⟨?_, ?_, ?_, ?_, ?_⟩
  · intro f b h
    simp [PureDPBudgetFilter.try_consume, h]
  · intro f r h
    simp [PureDPBudgetFilter.try_consume, h]
  · intro f b
    rcases hf : f.remaining_budget with _ | r <;> rcases b with _ | q <;>
      simp [PureDPBudgetFilter.try_consume, PureDPBudgetFilter.can_consume,
        hf] <;> split <;> simp_all
  · intro f q h
    rcases hf : f.remaining_budget with _ | r <;>
      simp [PureDPBudgetFilter.try_consume, hf, PureDPBudget.subEps] at h ⊢
    split at h <;> simp_all [PureDPBudgetFilter.try_consume, hf]
  · intro f b h
    rcases hf : f.remaining_budget with _ | r <;> rcases b with _ | q <;>
      simp [PureDPBudgetFilter.try_consume, hf] at h ⊢
    split_ifs at h ⊢ with hc <;> simp_all

/-- Witness for C9 at concrete inputs: an infinite filter accepts an
infinite request, and consuming 1/2 from a filter with remaining 1 leaves
remaining 1/2. -/
theorem pure_dp_filter_consume_spec_witness :
    ((⟨PureDPBudget.Infinite⟩ : PureDPBudgetFilter).try_consume
        PureDPBudget.Infinite).1 = FilterStatus.Continue ∧
    ((⟨PureDPBudget.Epsilon 1⟩ : PureDPBudgetFilter).try_consume
        (PureDPBudget.Epsilon (1 / 2))).2.remaining_budget =
      (PureDPBudget.Epsilon 1).subEps (1 / 2) :=
  ⟨pure_dp_filter_consume_spec.1 _ _ rfl,
   pure_dp_filter_consume_spec.2.2.2.1 _ _
     (by norm_num [PureDPBudgetFilter.try_consume])⟩

/-- C8 counterexample: `PpaHistogramRequest::new` accepts a configuration
with `attributable_value = 0`, although the claim requires it to error on
`attributable_value ≤ 0`. -/
theorem ppa_new_accepts_zero_attributable :
    c8_config.attributable_value ≤ 0 ∧
    exceptIsError (PpaHistogramRequest.new c8_config c4_selector) = false := by
  constructor
  · decide
  · rfl

/-- C8 amended: `PpaHistogramRequest::new` errors iff `requested_epsilon ≤ 0`
or `attributable_value < 0` or `max_attributable_value < 0` or
`histogram_size = 0`; zero sensitivity values are accepted. -/
theorem ppa_new_error_iff {U : Type} [DecidableEq U]
    (config : PpaHistogramConfig) (sel : PpaRelevantEventSelector U) :
    exceptIsError (PpaHistogramRequest.new config sel) = true ↔
      (config.requested_epsilon ≤ 0 ∨ config.attributable_value < 0 ∨
        config.max_attributable_value < 0 ∨ config.histogram_size = 0) := by
  unfold PpaHistogramRequest.new
  split_ifs with h1 h2 h3
  · simpa [exceptIsError] using Or.inl h1
  · refine (iff_of_true rfl ?_)
    rcases h2 with h | h
    · exact Or.inr (Or.inl h)
    · exact Or.inr (Or.inr (Or.inl h))
  · simpa [exceptIsError] using Or.inr (Or.inr (Or.inr h3))
  · simp only [exceptIsError, Bool.false_eq_true, false_iff]
    intro hc
    rcases hc with h | h | h | h
    · exact h1 h
    · exact h2 (Or.inl h)
    · exact h2 (Or.inr h)
    · exact h3 h

/-- C2: with a noise scale of at least machine epsilon, the per-epoch
individual privacy loss (`compute_epoch_loss` called with
`num_epochs = request.epoch_ids.length` as in `pds/core.rs` lines 83-101)
is 0 for an epoch with no relevant events, the single-epoch L1 sensitivity
of the unfiltered report divided by the noise scale for a one-epoch
request, and the report global sensitivity divided by the noise scale for a
multi-epoch request. -/
theorem compute_epoch_loss_case_analysis {E U Ev R : Type}
    (request : EpochReportRequest E U Ev R) (epoch_relevant_events : List Ev)
    (computed_attribution : R)
    (hnoise : f64Epsilon ≤ request.noise_scale) :
    (epoch_relevant_events = [] →
      compute_epoch_loss request epoch_relevant_events computed_attribution
        request.epoch_ids.length = PureDPBudget.Epsilon 0) ∧
    (epoch_relevant_events ≠ [] → request.epoch_ids.length = 1 →
      compute_epoch_loss request epoch_relevant_events computed_attribution
        request.epoch_ids.length =
        PureDPBudget.Epsilon
          (request.single_epoch_individual_sensitivity computed_attribution /
            request.noise_scale)) ∧
    (epoch_relevant_events ≠ [] → 2 ≤ request.epoch_ids.length →
      compute_epoch_loss request epoch_relevant_events computed_attribution
        request.epoch_ids.length =
        PureDPBudget.Epsilon
          (request.report_global_sensitivity / request.noise_scale)) := by
  have heps : (0 : ℚ) < f64Epsilon := by norm_num [f64Epsilon]
  have habs : ¬ |request.noise_scale| < f64Epsilon := by
    rw [not_lt, abs_of_pos (lt_of_lt_of_le heps hnoise)]
    exact hnoise
  refine ⟨?_, ?_, ?_⟩
  · intro h
    simp [compute_epoch_loss, h]
  · intro h h1
    simp [compute_epoch_loss, h, h1, habs]
  · intro h h2
    have h1 : request.epoch_ids.length ≠ 1 := by omega
    simp [compute_epoch_loss, h, h1, habs]

/-- Witness for C2 at a concrete single-epoch request with noise scale 2:
a non-empty epoch gets the L1 sensitivity over the noise scale, an empty
epoch gets loss 0. -/
theorem compute_epoch_loss_case_analysis_witness :
    compute_epoch_loss c2_request [7] (3 : ℚ) c2_request.epoch_ids.length =
      PureDPBudget.Epsilon
        (c2_request.single_epoch_individual_sensitivity 3 /
          c2_request.noise_scale) ∧
    compute_epoch_loss c2_request [] (3 : ℚ) c2_request.epoch_ids.length =
      PureDPBudget.Epsilon 0 :=
  ⟨(compute_epoch_loss_case_analysis c2_request [7] 3
      (by norm_num [f64Epsilon, c2_request])).2.1 (by simp) rfl,
   (compute_epoch_loss_case_analysis c2_request [] 3
      (by norm_num [f64Epsilon, c2_request])).1 rfl⟩

/-- C7 counterexample: with a zero noise scale but an epoch with no
relevant events, the device-epoch loss is `Epsilon 0`, not `Infinite`
(`compute_epoch_loss` returns in its Case 1 before the near-zero noise
check). -/
theorem near_zero_noise_empty_epoch_counterexample :
    |c7_request.noise_scale| < f64Epsilon ∧
    compute_epoch_loss c7_request ([] : List ℕ) (0 : ℚ)
      c7_request.epoch_ids.length ≠ PureDPBudget.Infinite := by
  constructor
  · norm_num [c7_request, f64Epsilon]
  · simp [compute_epoch_loss]

/-- C7 amended: when the noise scale is below machine epsilon, every
device-epoch-source loss is `Infinite` (for every requested source, with or
without relevant events), and the device-epoch loss is `Infinite` provided
the epoch has at least one relevant event; an epoch with no relevant events
still gets loss 0. -/
theorem near_zero_noise_infinite_losses {E U Ev R : Type} [DecidableEq U]
    (request : EpochReportRequest E U Ev R) (epoch_relevant_events : List Ev)
    (epoch_event_sources : List U) (computed_attribution : R)
    (num_epochs : ℕ)
    (hnoise : |request.noise_scale| < f64Epsilon) :
    (∀ p ∈ compute_epoch_source_losses request epoch_event_sources
        computed_attribution num_epochs,
      Prod.snd p = PureDPBudget.Infinite) ∧
    (epoch_relevant_events ≠ [] →
      compute_epoch_loss request epoch_relevant_events computed_attribution
        num_epochs = PureDPBudget.Infinite) ∧
    (epoch_relevant_events = [] →
      compute_epoch_loss request epoch_relevant_events computed_attribution
        num_epochs = PureDPBudget.Epsilon 0) := by
  refine ⟨?_, ?_, ?_⟩
  · have hrw : compute_epoch_source_losses request epoch_event_sources
        computed_attribution num_epochs =
        request.report_uris.source_uris.foldl
          (fun m s => alInsert m s PureDPBudget.Infinite) [] := by
      simp [compute_epoch_source_losses, hnoise]
    rw [hrw]
    exact foldl_alInsert_inf _ _ (by simp)
  · intro h
    simp [compute_epoch_loss, h, hnoise]
  · intro h
    simp [compute_epoch_loss, h]

/-- Witness for C7 (amended) at the concrete zero-noise request: the
per-source loss for the requested source is infinite, and a non-empty epoch
gets an infinite device-epoch loss. -/
theorem near_zero_noise_infinite_losses_witness :
    (∀ p ∈ compute_epoch_source_losses c7_request ["blog"] (3 : ℚ) 1,
      Prod.snd p = PureDPBudget.Infinite) ∧
    compute_epoch_loss c7_request [7] (3 : ℚ) 1 = PureDPBudget.Infinite :=
  ⟨(near_zero_noise_infinite_losses c7_request [7] ["blog"] 3 1
      (by norm_num [c7_request, f64Epsilon])).1,
   (near_zero_noise_infinite_losses c7_request [7] ["blog"] 3 1
      (by norm_num [c7_request, f64Epsilon])).2.1 (by simp)⟩

/-- The attribution loop keeps exactly the accepted prefix of the event
values and accumulates it into the running bins. -/
theorem histogram_attribution_loop_take {Ev : Type} (cap : ℚ)
    (bk : Ev → ℕ) :
    ∀ (evs : List (Ev × ℚ)) (total : ℚ) (bins : List (ℕ × ℚ)),
      histogram_attribution_loop cap bk evs total bins =
        (evs.take (accepted_count cap total evs)).foldl
          (fun b p => alAddTo b (bk p.1) p.2) bins := by
  intro evs
  induction evs with
  | nil =>
    intro total bins
    simp [histogram_attribution_loop, accepted_count]
  | cons p rest ih =>
    intro total bins
    obtain ⟨e, v⟩ := p
    by_cases hc : cap < total + v
    · simp [histogram_attribution_loop, accepted_count, hc]
    · simp [histogram_attribution_loop, accepted_count, hc, ih]

/-- When every running total stays within the cap, every event is
accepted. -/
theorem accepted_count_of_all_le {Ev : Type} (cap : ℚ) :
    ∀ (evs : List (Ev × ℚ)) (total : ℚ),
      (∀ j ≤ evs.length, total + ((evs.take j).map Prod.snd).sum ≤ cap) →
      accepted_count cap total evs = evs.length := by
  intro evs
  induction evs with
  | nil => intro total _; simp [accepted_count]
  | cons p rest ih =>
    intro total h
    obtain ⟨e, v⟩ := p
    have h1 : total + v ≤ cap := by simpa using h 1 (by simp)
    rw [accepted_count, if_neg (not_lt.mpr h1)]
    have h2 : accepted_count cap (total + v) rest = rest.length := by
      refine ih (total + v) ?_
      intro j hj
      have := h (j + 1) (by simpa using Nat.succ_le_succ hj)
      simpa [List.take_succ_cons, add_assoc] using this
    simp [h2]

/-- When the running total first exceeds the cap at index `k`, exactly the
first `k` events are accepted. -/
theorem accepted_count_of_first_exceed {Ev : Type} (cap : ℚ) :
    ∀ (evs : List (Ev × ℚ)) (k : ℕ) (total : ℚ),
      k < evs.length →
      (∀ j ≤ k, total + ((evs.take j).map Prod.snd).sum ≤ cap) →
      cap < total + ((evs.take (k + 1)).map Prod.snd).sum →
      accepted_count cap total evs = k := by
  intro evs
  induction evs with
  | nil => intro k total hk _ _; simp at hk
  | cons p rest ih =>
    intro k total hk hle hgt
    obtain ⟨e, v⟩ := p
    cases k with
    | zero =>
      have hc : cap < total + v := by simpa using hgt
      simp [accepted_count, hc]
    | succ k' =>
      have h1 : total + v ≤ cap := by simpa using hle 1 (by omega)
      rw [accepted_count, if_neg (not_lt.mpr h1)]
      have h2 : accepted_count cap (total + v) rest = k' := by
        refine ih k' (total + v) (by simpa using hk) ?_ ?_
        · intro j hj
          have := hle (j + 1) (by omega)
          simpa [List.take_succ_cons, add_assoc] using this
        · simpa [List.take_succ_cons, add_assoc] using hgt
      simp [h2]

/-- C3: the histogram attribution loop enforces the L1 cap with a strict
comparison. If every cumulative attributed total stays at or below the cap
(equality included), every event is accumulated; if index `k` is the first
event whose cumulative total strictly exceeds the cap, the loop halts and
returns the bins of the first `k` events, excluding the offending one. -/
theorem histogram_l1_cap_strict {Ev : Type} (attributable_value : ℚ)
    (bk : Ev → ℕ) (evs : List (Ev × ℚ)) (k : ℕ) :
    ((∀ j ≤ evs.length,
        ((evs.take j).map Prod.snd).sum ≤ attributable_value) →
      histogram_attribution_loop attributable_value bk evs 0 [] =
        attributed_bins bk evs) ∧
    (k < evs.length →
      (∀ j ≤ k, ((evs.take j).map Prod.snd).sum ≤ attributable_value) →
      attributable_value < ((evs.take (k + 1)).map Prod.snd).sum →
      histogram_attribution_loop attributable_value bk evs 0 [] =
        attributed_bins bk (evs.take k)) := by
  constructor
  · intro h
    rw [histogram_attribution_loop_take,
      accepted_count_of_all_le attributable_value evs 0 (by simpa using h),
      List.take_length]
    rfl
  · intro hk hle hgt
    rw [histogram_attribution_loop_take,
      accepted_count_of_first_exceed attributable_value evs k 0 hk
        (by simpa using hle) (by simpa using hgt)]
    rfl

/-- Witness for C3: with cap 100, two events worth 80 each keep only the
first (160 > 100), while two events worth 50 each are both kept
(100 = 100 accepted). -/
theorem histogram_l1_cap_strict_witness :
    histogram_attribution_loop 100 (fun n => n)
        [((1 : ℕ), (80 : ℚ)), (2, 80)] 0 [] =
      attributed_bins (fun n => n) [((1 : ℕ), (80 : ℚ))] ∧
    histogram_attribution_loop 100 (fun n => n)
        [((1 : ℕ), (50 : ℚ)), (2, 50)] 0 [] =
      attributed_bins (fun n => n) [((1 : ℕ), (50 : ℚ)), (2, 50)] :=
  ⟨(histogram_l1_cap_strict 100 (fun n => n) [((1 : ℕ), (80 : ℚ)), (2, 80)]
        1).2
      (by norm_num)
      (by intro j hj; interval_cases j <;> norm_num)
      (by norm_num),
   (histogram_l1_cap_strict 100 (fun n => n) [((1 : ℕ), (50 : ℚ)), (2, 50)]
        0).1
      (by
        intro j hj
        simp only [List.length_cons, List.length_nil] at hj
        interval_cases j <;> norm_num)⟩

/-- C4 counterexample: in `c4_rel`, the most recent epoch 2 is the first
epoch with a relevant event, but its only event is out of range; the claim
then requires an empty report, yet `event_values` attributes the whole
value to the in-range event of the *earlier* epoch 1. -/
theorem ppa_last_touch_crosses_epochs_counterexample :
    c4_request.epoch_ids = [2, 1] ∧
    c4_rel.for_epoch 2 = [c4_e_bad] ∧
    ¬ c4_e_bad.histogram_index < c4_request.histogram_size ∧
    c4_request.event_values c4_rel = [(c4_e_good, 100)] := by
  refine ⟨rfl, rfl, by decide, ?_⟩
  rfl

/-- The epoch scan of last-touch attribution equals a single `find?` over
the concatenation of the epochs' reversed event lists. -/
theorem ppa_find_last_touch_eq {U : Type} (histogram_size : ℕ)
    (rel : RelevantEvents ℕ (PpaEvent U)) :
    ∀ es : List ℕ,
      ppa_find_last_touch histogram_size rel es =
        ((es.map (fun e => (rel.for_epoch e).reverse)).flatten).find?
          (fun event => decide (event.histogram_index < histogram_size)) := by
  intro es
  induction es with
  | nil => simp [ppa_find_last_touch]
  | cons e rest ih =>
    rw [ppa_find_last_touch]
    simp only [List.map_cons, List.flatten_cons, List.find?_append]
    cases hf : (rel.for_epoch e).reverse.find?
      (fun event => decide (event.histogram_index < histogram_size)) with
    | some ev => simp [hf]
    | none => simp [hf, ih]

/-- C4 amended: last-touch attribution scans epochs most-recent-first and,
within each epoch, events in reverse insertion order; the entire
`attributable_value` goes to the first event in this cross-epoch scan order
whose `histogram_index` is within `histogram_size`. Out-of-range events are
skipped (with a diagnostic) and the scan continues, including into earlier
epochs; only if no event anywhere qualifies is the report empty. -/
theorem ppa_last_touch_scan_order {U : Type} [DecidableEq U]
    (r : PpaHistogramRequest U) (rel : RelevantEvents ℕ (PpaEvent U)) :
    r.event_values rel =
      match (last_touch_scan_order r rel).find?
        (fun event => decide (event.histogram_index < r.histogram_size)) with
      | some event => [(event, r.attributable_value)]
      | none => [] := by
  unfold PpaHistogramRequest.event_values last_touch_scan_order
  rw [ppa_find_last_touch_eq]

/-- Replacing the entries keyed `k` does not change lookups at other
keys. -/
theorem alLookup_map_replace {α β : Type} [DecidableEq α] (k k' : α) (v : β)
    (hkk : ¬ k = k') :
    ∀ l : List (α × β),
      alLookup (l.map (fun q => if q.1 = k then (k, v) else q)) k' =
        alLookup l k' := by
  intro l
  induction l with
  | nil => rfl
  | cons q l ih =>
    have hkk' : ¬ k' = k := fun h => hkk h.symm
    by_cases hq : q.1 = k
    · have hq' : ¬ q.1 = k' := by rw [hq]; exact hkk
      simp [alLookup, hq, hq', hkk, hkk', ih]
    · by_cases hq' : q.1 = k'
      · simp [alLookup, hq, hq', hkk, hkk', ih]
      · simp [alLookup, hq, hq', ih]

/-- Replacing the entries keyed `k` makes lookups at `k` return the new
value, provided some entry with key `k` exists. -/
theorem alLookup_map_replace_self {α β : Type} [DecidableEq α] (k : α)
    (v : β) :
    ∀ l : List (α × β), l.any (fun q => q.1 = k) = true →
      alLookup (l.map (fun q => if q.1 = k then (k, v) else q)) k =
        some v := by
  intro l
  induction l with
  | nil => simp
  | cons q l ih =>
    intro h
    by_cases hq : q.1 = k
    · simp [alLookup, hq]
    · have h' : l.any (fun q => q.1 = k) = true := by simpa [hq] using h
      simp [alLookup, hq, ih h']

/-- Appending a fresh entry behaves as an insert when the key is absent. -/
theorem alLookup_append_single {α β : Type} [DecidableEq α] (k k' : α)
    (v : β) :
    ∀ l : List (α × β), l.any (fun q => q.1 = k) = false →
      alLookup (l ++ [(k, v)]) k' =
        if k = k' then some v else alLookup l k' := by
  intro l
  induction l with
  | nil => intro _; simp [alLookup]
  | cons q l ih =>
    intro h
    rw [List.any_cons, Bool.or_eq_false_iff] at h
    obtain ⟨h1, h2⟩ := h
    have hq : ¬ q.1 = k := by simpa using h1
    by_cases hq' : q.1 = k'
    · have hkk : ¬ k = k' := fun hc => hq (by rw [hc, hq'])
      simp [alLookup, hq', hkk]
    · simp [alLookup, hq', ih h2]

/-- Lookup after insert-or-replace: the new value at the inserted key,
unchanged elsewhere. -/
theorem alLookup_alInsert {α β : Type} [DecidableEq α] (l : List (α × β))
    (k : α) (v : β) (k' : α) :
    alLookup (alInsert l k v) k' =
      if k = k' then some v else alLookup l k' := by
  unfold alInsert
  split
  case isTrue h =>
    by_cases hkk : k = k'
    · subst hkk
      rw [alLookup_map_replace_self k v l h, if_pos rfl]
    · rw [alLookup_map_replace k k' v hkk l, if_neg hkk]
  case isFalse h =>
    exact alLookup_append_single k k' v l (Bool.eq_false_iff.mpr h)

namespace FilterStorage

variable {E U : Type} [DecidableEq E] [DecidableEq U]

/-- Remaining budget after a `set_filter`. -/
theorem remaining_budget_set_filter (caps : StaticCapacities)
    (st : FilterStorage E U) (fid fid' : FilterId E U)
    (f : PureDPBudgetFilter) :
    remaining_budget caps (set_filter st fid f) fid' =
      if fid = fid' then f.remaining_budget
      else remaining_budget caps st fid' := by
  unfold remaining_budget get_filter_or_new get_filter set_filter
  rw [alLookup_alInsert]
  split <;> simp

/-- `try_consume` leaves every other filter's remaining budget unchanged. -/
theorem remaining_budget_try_consume_ne (caps : StaticCapacities)
    (st : FilterStorage E U) (fid fid' : FilterId E U) (b : PureDPBudget)
    (h : fid ≠ fid') :
    remaining_budget caps (try_consume caps st fid b).2 fid' =
      remaining_budget caps st fid' := by
  unfold try_consume
  simp [remaining_budget_set_filter, h]

/-- Two storages with the same remaining budget at a filter materialize the
same filter there. -/
theorem get_filter_or_new_congr (caps : StaticCapacities)
    (st₁ st₂ : FilterStorage E U) (fid : FilterId E U)
    (h : remaining_budget caps st₁ fid = remaining_budget caps st₂ fid) :
    get_filter_or_new caps st₁ fid = get_filter_or_new caps st₂ fid := by
  unfold remaining_budget at h
  cases hx : get_filter_or_new caps st₁ fid with
  | mk rb₁ =>
    cases hy : get_filter_or_new caps st₂ fid with
    | mk rb₂ =>
      rw [hx, hy] at h
      simp only [PureDPBudgetFilter.mk.injEq]
      exact h

/-- `can_consume` depends only on the filter's remaining budget. -/
theorem can_consume_congr (caps : StaticCapacities)
    (st₁ st₂ : FilterStorage E U) (fid : FilterId E U) (b : PureDPBudget)
    (h : remaining_budget caps st₁ fid = remaining_budget caps st₂ fid) :
    can_consume caps st₁ fid b = can_consume caps st₂ fid b := by
  unfold can_consume
  rw [get_filter_or_new_congr caps st₁ st₂ fid h]

end FilterStorage

/-- A dry run (`can_consume` only) never modifies the storage. -/
theorem deduct_budget_go_dry_fst {E U : Type} [DecidableEq E] [DecidableEq U]
    (caps : StaticCapacities) :
    ∀ (fl : List (FilterId E U × PureDPBudget)) (st : FilterStorage E U),
      (deduct_budget_go caps true fl st).1 = st := by
  intro fl
  induction fl with
  | nil => intro st; rfl
  | cons p rest ih => intro st; simp [deduct_budget_go, ih]

/-- A dry run returns the storage it was given. -/
theorem deduct_budget_dry_fst {E U : Type} [DecidableEq E] [DecidableEq U]
    (caps : StaticCapacities) (st : FilterStorage E U)
    (fl : List (FilterId E U × PureDPBudget)) :
    (deduct_budget caps st fl true).1 = st := by
  unfold deduct_budget
  exact deduct_budget_go_dry_fst caps fl st

/-- A dry run collects no out-of-budget ids iff every filter of the set can
absorb its loss. -/
theorem deduct_budget_go_dry_nil_iff {E U : Type} [DecidableEq E]
    [DecidableEq U] (caps : StaticCapacities) :
    ∀ (fl : List (FilterId E U × PureDPBudget)) (st : FilterStorage E U),
      (deduct_budget_go caps true fl st).2 = [] ↔
        ∀ p ∈ fl,
          FilterStorage.can_consume caps st p.1 p.2 =
            FilterStatus.Continue := by
  intro fl
  induction fl with
  | nil => intro st; simp [deduct_budget_go]
  | cons p rest ih =>
    intro st
    cases hc : FilterStorage.can_consume caps st p.1 p.2 with
    | Continue => simp [deduct_budget_go, deduct_budget_go_dry_fst, hc, ih]
    | OutOfBudget => simp [deduct_budget_go, deduct_budget_go_dry_fst, hc]

/-- Phase 1 reports `Continue` iff every affected filter can absorb its
loss. -/
theorem deduct_budget_dry_continue_iff {E U : Type} [DecidableEq E]
    [DecidableEq U] (caps : StaticCapacities) (st : FilterStorage E U)
    (fl : List (FilterId E U × PureDPBudget)) :
    (deduct_budget caps st fl true).2 = PdsFilterStatus.Continue ↔
      ∀ p ∈ fl,
        FilterStorage.can_consume caps st p.1 p.2 =
          FilterStatus.Continue := by
  unfold deduct_budget
  dsimp only
  rw [← deduct_budget_go_dry_nil_iff caps fl st]
  split <;> simp_all

/-- Dry-run outcomes agree on storages that agree on the remaining budget
of every filter in the set. -/
theorem deduct_budget_go_dry_congr {E U : Type} [DecidableEq E]
    [DecidableEq U] (caps : StaticCapacities) :
    ∀ (fl : List (FilterId E U × PureDPBudget))
      (st₁ st₂ : FilterStorage E U),
      (∀ p ∈ fl,
        FilterStorage.remaining_budget caps st₁ p.1 =
          FilterStorage.remaining_budget caps st₂ p.1) →
      (deduct_budget_go caps true fl st₁).2 =
        (deduct_budget_go caps true fl st₂).2 := by
  intro fl
  induction fl with
  | nil => intro st₁ st₂ _; rfl
  | cons p rest ih =>
    intro st₁ st₂ h
    have hp := h p (by simp)
    have hcc := FilterStorage.can_consume_congr caps st₁ st₂ p.1 p.2 hp
    simp only [deduct_budget_go, if_true, deduct_budget_go_dry_fst, hcc]
    rw [ih st₁ st₂ (fun q hq => h q (by simp [hq]))]

/-- Dry-run statuses agree on storages that agree on the remaining budget
of every filter in the set. -/
theorem deduct_budget_dry_congr {E U : Type} [DecidableEq E] [DecidableEq U]
    (caps : StaticCapacities) (st₁ st₂ : FilterStorage E U)
    (fl : List (FilterId E U × PureDPBudget))
    (h : ∀ p ∈ fl,
      FilterStorage.remaining_budget caps st₁ p.1 =
        FilterStorage.remaining_budget caps st₂ p.1) :
    (deduct_budget caps st₁ fl true).2 = (deduct_budget caps st₂ fl true).2 := by
  unfold deduct_budget
  dsimp only
  rw [deduct_budget_go_dry_congr caps fl st₁ st₂ h]

/-- Phase 2 leaves filters outside the deducted set untouched. -/
theorem deduct_budget_go_commit_other {E U : Type} [DecidableEq E]
    [DecidableEq U] (caps : StaticCapacities) :
    ∀ (fl : List (FilterId E U × PureDPBudget)) (st : FilterStorage E U)
      (fid : FilterId E U), (∀ p ∈ fl, p.1 ≠ fid) →
      FilterStorage.remaining_budget caps
          (deduct_budget_go caps false fl st).1 fid =
        FilterStorage.remaining_budget caps st fid := by
  intro fl
  induction fl with
  | nil => intro st fid _; rfl
  | cons p rest ih =>
    intro st fid h
    simp only [deduct_budget_go, if_false, Bool.false_eq_true]
    rw [ih _ fid (fun q hq => h q (by simp [hq])),
      FilterStorage.remaining_budget_try_consume_ne caps st p.1 fid p.2
        (h p (by simp))]

/-- The commit phase leaves filters outside the deducted set untouched. -/
theorem deduct_budget_commit_other {E U : Type} [DecidableEq E]
    [DecidableEq U] (caps : StaticCapacities) (st : FilterStorage E U)
    (fl : List (FilterId E U × PureDPBudget)) (fid : FilterId E U)
    (h : ∀ p ∈ fl, p.1 ≠ fid) :
    FilterStorage.remaining_budget caps (deduct_budget caps st fl false).1
        fid =
      FilterStorage.remaining_budget caps st fid := by
  unfold deduct_budget
  exact deduct_budget_go_commit_other caps fl st fid h

/-- Pairs in an `alInsert` fold come from the accumulator or from the
folded list. -/
theorem mem_foldl_alInsert {α β γ : Type} [DecidableEq α] (f : γ → α)
    (g : γ → β) :
    ∀ (xs : List γ) (acc : List (α × β)) (p : α × β),
      p ∈ xs.foldl (fun m x => alInsert m (f x) (g x)) acc →
      p ∈ acc ∨ ∃ x ∈ xs, p = (f x, g x) := by
  intro xs
  induction xs with
  | nil => intro acc p hp; exact Or.inl hp
  | cons x rest ih =>
    intro acc p hp
    rcases ih _ p hp with hacc | ⟨y, hy, rfl⟩
    · rcases mem_alInsert hacc with rfl | hl
      · exact Or.inr ⟨x, by simp, rfl⟩
      · exact Or.inl hl
    · exact Or.inr ⟨y, by simp [hy], rfl⟩

/-- Every filter in the per-epoch filter set is tagged with that epoch. -/
theorem filters_to_consume_epoch {E U : Type} [DecidableEq E] [DecidableEq U]
    (epoch_id : E) (loss : PureDPBudget)
    (source_losses : List (U × PureDPBudget)) (uris : ReportRequestUris U) :
    ∀ p ∈ filters_to_consume epoch_id loss source_losses uris,
      p.1.epoch = epoch_id := by
  intro p hp
  unfold filters_to_consume at hp
  rcases mem_foldl_alInsert
      (fun s : U × PureDPBudget => FilterId.QSource epoch_id s.1)
      (fun s => s.2) source_losses _ p hp with hbase | ⟨s, _, rfl⟩
  · rcases mem_foldl_alInsert (fun fid : FilterId E U => fid)
        (fun _ => loss) _ _ p hbase with hnil | ⟨fid, hfid, rfl⟩
    · simp at hnil
    · rcases List.mem_append.mp hfid with hmap | hfixed
      · obtain ⟨q, _, rfl⟩ := List.mem_map.mp hmap
        rfl
      · simp only [List.mem_cons, List.not_mem_nil, or_false] at hfixed
        rcases hfixed with rfl | rfl <;> rfl
  · rfl

/-- Every filter in the epoch filter set built by the `compute_report`
epoch loop is tagged with that epoch. -/
theorem epoch_filter_set_epoch {E U Ev R : Type} [DecidableEq E]
    [DecidableEq U] (request : EpochReportRequest E U Ev R)
    (eventSource : Ev → U) (rel : RelevantEvents E Ev) (unf : R) (n : ℕ)
    (epoch_id : E) :
    ∀ p ∈ epoch_filter_set request eventSource rel unf n epoch_id,
      p.1.epoch = epoch_id :=
  fun p hp => filters_to_consume_epoch epoch_id _ _ _ p hp

/-- The epoch filter set depends on the relevant events only through the
epoch's own event list. -/
theorem epoch_filter_set_congr {E U Ev R : Type} [DecidableEq E]
    [DecidableEq U] (request : EpochReportRequest E U Ev R)
    (eventSource : Ev → U) (rel₁ rel₂ : RelevantEvents E Ev) (unf : R)
    (n : ℕ) (epoch_id : E)
    (h : rel₁.for_epoch epoch_id = rel₂.for_epoch epoch_id) :
    epoch_filter_set request eventSource rel₁ unf n epoch_id =
      epoch_filter_set request eventSource rel₂ unf n epoch_id := by
  unfold epoch_filter_set RelevantEvents.sources_for_epoch
  rw [h]

/-- Filtering out the entries of one key leaves lookups at other keys
unchanged. -/
theorem alLookup_filter_ne {E γ : Type} [DecidableEq E] (e e₀ : E)
    (h : ¬ e₀ = e) :
    ∀ l : List (E × γ),
      alLookup (l.filter (fun p => ¬ p.1 = e)) e₀ = alLookup l e₀ := by
  intro l
  induction l with
  | nil => rfl
  | cons q l ih =>
    by_cases hq : q.1 = e
    · have hq' : ¬ q.1 = e₀ := by
        rw [hq]
        intro hc
        exact h hc.symm
      rw [List.filter_cons_of_neg (by simp [hq]), ih]
      simp only [alLookup]
      rw [if_neg hq']
    · rw [List.filter_cons_of_pos (by simp [hq])]
      simp only [alLookup]
      rw [ih]

/-- Dropping one epoch leaves the other epochs' event lists unchanged. -/
theorem for_epoch_drop_ne {E Ev : Type} [DecidableEq E]
    (rel : RelevantEvents E Ev) (e e₀ : E) (h : ¬ e₀ = e) :
    (rel.drop_epoch e).for_epoch e₀ = rel.for_epoch e₀ := by
  unfold RelevantEvents.drop_epoch RelevantEvents.for_epoch
  rw [alLookup_filter_ne e e₀ h rel.events_per_epoch]

/-- One step of the `compute_report` epoch loop, with the dry run's
unchanged storage made explicit. -/
theorem compute_report_epoch_loop_cons {E U Ev R : Type} [DecidableEq E]
    [DecidableEq U] (caps : StaticCapacities) (src : Ev → U)
    (request : EpochReportRequest E U Ev R) (n : ℕ) (unf : R) (e₀ : E)
    (rest : List E) (st : FilterStorage E U) (rel : RelevantEvents E Ev)
    (oob : List (FilterId E U)) :
    compute_report_epoch_loop caps src request n unf (e₀ :: rest) st rel
        oob =
      match (deduct_budget caps st
          (epoch_filter_set request src rel unf n e₀) true).2 with
      | PdsFilterStatus.Continue =>
          if (deduct_budget caps st
              (epoch_filter_set request src rel unf n e₀) false).2 =
              PdsFilterStatus.Continue then
            compute_report_epoch_loop caps src request n unf rest
              (deduct_budget caps st
                (epoch_filter_set request src rel unf n e₀) false).1 rel oob
          else none
      | PdsFilterStatus.OutOfBudget filters =>
          compute_report_epoch_loop caps src request n unf rest st
            (rel.drop_epoch e₀) (oob ++ filters) := by
  simp only [compute_report_epoch_loop, deduct_budget_dry_fst]

/-- The epoch loop leaves filters of unprocessed epochs untouched. -/
theorem compute_report_epoch_loop_preserves {E U Ev R : Type} [DecidableEq E]
    [DecidableEq U] (caps : StaticCapacities) (src : Ev → U)
    (request : EpochReportRequest E U Ev R) (n : ℕ) (unf : R) :
    ∀ (es : List E) (st : FilterStorage E U) (rel : RelevantEvents E Ev)
      (oob : List (FilterId E U)) (st' : FilterStorage E U)
      (rel' : RelevantEvents E Ev) (oob' : List (FilterId E U))
      (fid : FilterId E U),
      compute_report_epoch_loop caps src request n unf es st rel oob =
        some (st', rel', oob') →
      (∀ e ∈ es, ¬ fid.epoch = e) →
      FilterStorage.remaining_budget caps st' fid =
        FilterStorage.remaining_budget caps st fid := by
  intro es
  induction es with
  | nil =>
    intro st rel oob st' rel' oob' fid h _
    simp only [compute_report_epoch_loop, Option.some.injEq,
      Prod.mk.injEq] at h
    rw [← h.1]
  | cons e₀ rest ih =>
    intro st rel oob st' rel' oob' fid h hfid
    rw [compute_report_epoch_loop_cons] at h
    cases hdry : (deduct_budget caps st
        (epoch_filter_set request src rel unf n e₀) true).2 with
    | Continue =>
      simp only [hdry] at h
      by_cases hcs : (deduct_budget caps st
          (epoch_filter_set request src rel unf n e₀) false).2 =
          PdsFilterStatus.Continue
      · rw [if_pos hcs] at h
        have h1 := ih _ _ _ _ _ _ fid h
          (fun e he => hfid e (List.mem_cons_of_mem _ he))
        rw [h1]
        refine deduct_budget_commit_other caps st _ fid ?_
        intro p hp hc
        have hpe := epoch_filter_set_epoch request src rel unf n e₀ p hp
        rw [hc] at hpe
        exact hfid e₀ (by simp) hpe
      · rw [if_neg hcs] at h
        cases h
    | OutOfBudget filters =>
      simp only [hdry] at h
      exact ih _ _ _ _ _ _ fid h
        (fun e he => hfid e (List.mem_cons_of_mem _ he))

/-- The epoch loop leaves the event lists of unprocessed epochs
unchanged. -/
theorem compute_report_epoch_loop_rel_preserves {E U Ev R : Type}
    [DecidableEq E] [DecidableEq U] (caps : StaticCapacities) (src : Ev → U)
    (request : EpochReportRequest E U Ev R) (n : ℕ) (unf : R) :
    ∀ (es : List E) (st : FilterStorage E U) (rel : RelevantEvents E Ev)
      (oob : List (FilterId E U)) (st' : FilterStorage E U)
      (rel' : RelevantEvents E Ev) (oob' : List (FilterId E U)) (e₁ : E),
      compute_report_epoch_loop caps src request n unf es st rel oob =
        some (st', rel', oob') →
      e₁ ∉ es →
      rel'.for_epoch e₁ = rel.for_epoch e₁ := by
  intro es
  induction es with
  | nil =>
    intro st rel oob st' rel' oob' e₁ h _
    simp only [compute_report_epoch_loop, Option.some.injEq,
      Prod.mk.injEq] at h
    rw [← h.2.1]
  | cons e₀ rest ih =>
    intro st rel oob st' rel' oob' e₁ h he₁
    rw [compute_report_epoch_loop_cons] at h
    cases hdry : (deduct_budget caps st
        (epoch_filter_set request src rel unf n e₀) true).2 with
    | Continue =>
      simp only [hdry] at h
      by_cases hcs : (deduct_budget caps st
          (epoch_filter_set request src rel unf n e₀) false).2 =
          PdsFilterStatus.Continue
      · rw [if_pos hcs] at h
        exact ih _ _ _ _ _ _ _ h (fun hc => he₁ (List.mem_cons_of_mem _ hc))
      · rw [if_neg hcs] at h
        cases h
    | OutOfBudget filters =>
      simp only [hdry] at h
      rw [ih _ _ _ _ _ _ _ h (fun hc => he₁ (List.mem_cons_of_mem _ hc))]
      exact for_epoch_drop_ne rel e₀ e₁ (fun hc => he₁ (by simp [hc]))

/-- If an epoch's Phase-1 dry run (evaluated against the state and events
at the start of the operation) is out of budget, the epoch loop leaves the
remaining budget of every filter of that epoch's filter set unchanged. -/
theorem compute_report_epoch_loop_oob_atomic {E U Ev R : Type}
    [DecidableEq E] [DecidableEq U] (caps : StaticCapacities) (src : Ev → U)
    (request : EpochReportRequest E U Ev R) (n : ℕ) (unf : R) :
    ∀ (es : List E) (st : FilterStorage E U) (rel : RelevantEvents E Ev)
      (oob : List (FilterId E U)) (st' : FilterStorage E U)
      (rel' : RelevantEvents E Ev) (oob' : List (FilterId E U)) (e : E)
      (fids : List (FilterId E U)),
      es.Nodup → e ∈ es →
      compute_report_epoch_loop caps src request n unf es st rel oob =
        some (st', rel', oob') →
      (deduct_budget caps st (epoch_filter_set request src rel unf n e)
          true).2 = PdsFilterStatus.OutOfBudget fids →
      ∀ p ∈ epoch_filter_set request src rel unf n e,
        FilterStorage.remaining_budget caps st' p.1 =
          FilterStorage.remaining_budget caps st p.1 := by
  intro es
  induction es with
  | nil =>
    intro st rel oob st' rel' oob' e fids _ he
    simp at he
  | cons e₀ rest ih =>
    intro st rel oob st' rel' oob' e fids hnd he h hdry p hp
    rcases List.mem_cons.mp he with rfl | hmem
    · -- the failing epoch is at the head: the loop takes the OOB branch
      rw [compute_report_epoch_loop_cons] at h
      rw [hdry] at h
      have hpe := epoch_filter_set_epoch request src rel unf n e p hp
      refine compute_report_epoch_loop_preserves caps src request n unf
        rest _ _ _ _ _ _ p.1 h ?_
      intro e' he' hc
      rw [hpe] at hc
      exact (List.nodup_cons.mp hnd).1 (hc ▸ he')
    · -- the failing epoch comes later
      have hne : ¬ e = e₀ := fun hc =>
        (List.nodup_cons.mp hnd).1 (hc ▸ hmem)
      rw [compute_report_epoch_loop_cons] at h
      cases hdry0 : (deduct_budget caps st
          (epoch_filter_set request src rel unf n e₀) true).2 with
      | Continue =>
        simp only [hdry0] at h
        by_cases hcs : (deduct_budget caps st
            (epoch_filter_set request src rel unf n e₀) false).2 =
            PdsFilterStatus.Continue
        · rw [if_pos hcs] at h
          -- the commit only touches epoch-e₀ filters, so the epoch-e set
          -- and its dry-run status carry over to the new state
          have hkeys : ∀ q ∈ epoch_filter_set request src rel unf n e,
              FilterStorage.remaining_budget caps
                  (deduct_budget caps st
                    (epoch_filter_set request src rel unf n e₀) false).1
                  q.1 =
                FilterStorage.remaining_budget caps st q.1 := by
            intro q hq
            refine deduct_budget_commit_other caps st _ q.1 ?_
            intro p' hp' hc
            have hp'e := epoch_filter_set_epoch request src rel unf n e₀
              p' hp'
            have hqe := epoch_filter_set_epoch request src rel unf n e q hq
            rw [hc, hqe] at hp'e
            exact hne hp'e
          have hdry' : (deduct_budget caps
              (deduct_budget caps st
                (epoch_filter_set request src rel unf n e₀) false).1
              (epoch_filter_set request src rel unf n e) true).2 =
              PdsFilterStatus.OutOfBudget fids := by
            rw [deduct_budget_dry_congr caps _ st _ hkeys]
            exact hdry
          have := ih _ _ _ _ _ _ e fids (List.nodup_cons.mp hnd).2 hmem h
            hdry' p hp
          rw [this]
          exact hkeys p hp
        · rw [if_neg hcs] at h
          cases h
      | OutOfBudget filters =>
        simp only [hdry0] at h
        -- dropping epoch e₀ does not change epoch e's events or filter set
        have hrel : (rel.drop_epoch e₀).for_epoch e =
            rel.for_epoch e := for_epoch_drop_ne rel e₀ e hne
        have hset := epoch_filter_set_congr request src
          (rel.drop_epoch e₀) rel unf n e hrel
        have := ih _ _ _ _ _ _ e fids (List.nodup_cons.mp hnd).2 hmem h
          (by rw [hset]; exact hdry) p (by rw [hset]; exact hp)
        exact this

/-- A successful `compute_report` run determines the querier URI, the
unfiltered querier report, and a successful epoch-loop run ending in the
returned storage. -/
theorem compute_report_core_some_loop {E U Ev R : Type} [DecidableEq E]
    [DecidableEq U] (caps : StaticCapacities) (src : Ev → U)
    (request : EpochReportRequest E U Ev R) (st : FilterStorage E U)
    (rel : RelevantEvents E Ev)
    (res : List (U × PdsReport R (FilterId E U))) (stF : FilterStorage E U)
    (h : compute_report_core caps src request st rel = some (res, stF)) :
    ∃ querier_uri unf rel' oob,
      request.report_uris.querier_uris.head? = some querier_uri ∧
      alLookup (request.compute_report rel).uri_report_map querier_uri =
        some unf ∧
      compute_report_epoch_loop caps src request request.epoch_ids.length
        unf request.epoch_ids st rel [] = some (stF, rel', oob) := by
  unfold compute_report_core at h
  dsimp only at h
  split at h
  · cases h
  · split at h
    · cases h
    next querier hq =>
      split at h
      · cases h
      next unf hunf =>
        split at h
        · cases h
        next st' rel' oob hloop =>
          refine ⟨querier, unf, rel', oob, hq, hunf, ?_⟩
          split at h
          · cases h
          next fr hfr =>
            split at h <;>
              (simp only [Option.some.injEq, Prod.mk.injEq] at h;
               rw [← h.2];
               exact hloop)

/-- One step of the passive-loss epoch loop, with the dry run's unchanged
storage made explicit. -/
theorem passive_loop_cons {E U : Type} [DecidableEq E] [DecidableEq U]
    (caps : StaticCapacities) (b : PureDPBudget) (uris : ReportRequestUris U)
    (e₀ : E) (rest : List E) (st : FilterStorage E U) :
    account_for_passive_privacy_loss_loop caps b uris (e₀ :: rest) st =
      match (deduct_budget caps st (filters_to_consume e₀ b [] uris)
          true).2 with
      | PdsFilterStatus.Continue =>
          if (deduct_budget caps st (filters_to_consume e₀ b [] uris)
              false).2 = PdsFilterStatus.Continue then
            account_for_passive_privacy_loss_loop caps b uris rest
              (deduct_budget caps st (filters_to_consume e₀ b [] uris)
                false).1
          else none
      | PdsFilterStatus.OutOfBudget filters =>
          some (st, PdsFilterStatus.OutOfBudget filters) := by
  simp only [account_for_passive_privacy_loss_loop, deduct_budget_dry_fst]

/-- The passive-loss loop leaves filters of unprocessed epochs untouched. -/
theorem passive_loop_preserves {E U : Type} [DecidableEq E] [DecidableEq U]
    (caps : StaticCapacities) (b : PureDPBudget)
    (uris : ReportRequestUris U) :
    ∀ (es : List E) (st st' : FilterStorage E U)
      (status : PdsFilterStatus (FilterId E U)) (fid : FilterId E U),
      account_for_passive_privacy_loss_loop caps b uris es st =
        some (st', status) →
      (∀ e ∈ es, ¬ fid.epoch = e) →
      FilterStorage.remaining_budget caps st' fid =
        FilterStorage.remaining_budget caps st fid := by
  intro es
  induction es with
  | nil =>
    intro st st' status fid h _
    simp only [account_for_passive_privacy_loss_loop, Option.some.injEq,
      Prod.mk.injEq] at h
    rw [← h.1]
  | cons e₀ rest ih =>
    intro st st' status fid h hfid
    rw [passive_loop_cons] at h
    cases hdry : (deduct_budget caps st (filters_to_consume e₀ b [] uris)
        true).2 with
    | Continue =>
      simp only [hdry] at h
      by_cases hcs : (deduct_budget caps st
          (filters_to_consume e₀ b [] uris) false).2 =
          PdsFilterStatus.Continue
      · rw [if_pos hcs] at h
        have h1 := ih _ _ _ fid h
          (fun e he => hfid e (List.mem_cons_of_mem _ he))
        rw [h1]
        refine deduct_budget_commit_other caps st _ fid ?_
        intro p hp hc
        have hpe := filters_to_consume_epoch e₀ b [] uris p hp
        rw [hc] at hpe
        exact hfid e₀ (by simp) hpe
      · rw [if_neg hcs] at h
        cases h
    | OutOfBudget filters =>
      simp only [hdry, Option.some.injEq, Prod.mk.injEq] at h
      rw [← h.1]

/-- A passive-loss run that returns `OutOfBudget` splits the epoch list
into a committed prefix, the failing epoch, and unprocessed epochs: the
prefix is committed in order, the failing epoch's dry run fails against
the post-prefix state, and the returned storage is exactly the post-prefix
state. -/
theorem passive_loop_oob_split {E U : Type} [DecidableEq E] [DecidableEq U]
    (caps : StaticCapacities) (b : PureDPBudget)
    (uris : ReportRequestUris U) :
    ∀ (es : List E) (st stF : FilterStorage E U)
      (fids : List (FilterId E U)),
      account_for_passive_privacy_loss_loop caps b uris es st =
        some (stF, PdsFilterStatus.OutOfBudget fids) →
      ∃ pre e post stPre,
        es = pre ++ e :: post ∧
        account_for_passive_privacy_loss_loop caps b uris pre st =
          some (stPre, PdsFilterStatus.Continue) ∧
        (deduct_budget caps stPre (filters_to_consume e b [] uris)
            true).2 = PdsFilterStatus.OutOfBudget fids ∧
        stF = stPre := by
  intro es
  induction es with
  | nil =>
    intro st stF fids h
    simp only [account_for_passive_privacy_loss_loop, Option.some.injEq,
      Prod.mk.injEq] at h
    cases h.2
  | cons e₀ rest ih =>
    intro st stF fids h
    rw [passive_loop_cons] at h
    cases hdry : (deduct_budget caps st (filters_to_consume e₀ b [] uris)
        true).2 with
    | Continue =>
      simp only [hdry] at h
      by_cases hcs : (deduct_budget caps st
          (filters_to_consume e₀ b [] uris) false).2 =
          PdsFilterStatus.Continue
      · rw [if_pos hcs] at h
        obtain ⟨pre, e, post, stPre, hsplit, hpre, hdryF, hstF⟩ := ih _ _ _ h
        refine ⟨e₀ :: pre, e, post, stPre, by rw [hsplit]; rfl, ?_, hdryF,
          hstF⟩
        rw [passive_loop_cons, hdry, if_pos hcs]
        exact hpre
      · rw [if_neg hcs] at h
        cases h
    | OutOfBudget filters =>
      simp only [hdry, Option.some.injEq, Prod.mk.injEq,
        PdsFilterStatus.OutOfBudget.injEq] at h
      refine ⟨[], e₀, rest, st, rfl, rfl, ?_, h.1.symm⟩
      rw [hdry, h.2]

/-- C1: per-epoch deduction is atomic. (i) If `compute_report`'s Phase-1
dry run for an epoch reports out of budget (stated against the operation's
initial storage and relevant events, which the epochs are processed with,
for a duplicate-free epoch list), no filter in that epoch's filter set has
its remaining budget changed by the whole operation. (ii) Likewise, when
`account_for_passive_privacy_loss` reports out of budget, the failing
epoch's filters are unchanged from the start of the operation. (iii) A
Phase-1 dry run reports `Continue` iff every affected filter of the epoch
can absorb its loss — so a filter is debited only when all of them can. -/
theorem atomic_two_phase_deduction {E U Ev R : Type} [DecidableEq E]
    [DecidableEq U] :
    (∀ (caps : StaticCapacities) (src : Ev → U)
        (request : EpochReportRequest E U Ev R) (st : FilterStorage E U)
        (rel : RelevantEvents E Ev)
        (res : List (U × PdsReport R (FilterId E U)))
        (stF : FilterStorage E U) (querier_uri : U) (unf : R) (e : E)
        (fids : List (FilterId E U)),
      request.epoch_ids.Nodup → e ∈ request.epoch_ids →
      request.report_uris.querier_uris.head? = some querier_uri →
      alLookup (request.compute_report rel).uri_report_map querier_uri =
        some unf →
      compute_report_core caps src request st rel = some (res, stF) →
      (deduct_budget caps st
          (epoch_filter_set request src rel unf request.epoch_ids.length e)
          true).2 = PdsFilterStatus.OutOfBudget fids →
      ∀ p ∈ epoch_filter_set request src rel unf request.epoch_ids.length e,
        FilterStorage.remaining_budget caps stF p.1 =
          FilterStorage.remaining_budget caps st p.1) ∧
    (∀ (caps : StaticCapacities) (request : PassivePrivacyLossRequest E U)
        (st stF : FilterStorage E U) (fids : List (FilterId E U)),
      request.epoch_ids.Nodup →
      account_for_passive_privacy_loss caps request st =
        some (stF, PdsFilterStatus.OutOfBudget fids) →
      ∃ e ∈ request.epoch_ids,
        ∀ p ∈ filters_to_consume e request.privacy_budget [] request.uris,
          FilterStorage.remaining_budget caps stF p.1 =
            FilterStorage.remaining_budget caps st p.1) ∧
    (∀ (caps : StaticCapacities) (st : FilterStorage E U)
        (fl : List (FilterId E U × PureDPBudget)),
      (deduct_budget caps st fl true).2 = PdsFilterStatus.Continue ↔
        ∀ p ∈ fl,
          FilterStorage.can_consume caps st p.1 p.2 =
            FilterStatus.Continue) := by
  refine ⟨?_, ?_, ?_⟩
  · intro caps src request st rel res stF querier_uri unf e fids hnd he hq
      hunf hrun hdry p hp
    obtain ⟨q', unf', rel', oob, hq', hunf', hloop⟩ :=
      compute_report_core_some_loop caps src request st rel res stF hrun
    rw [hq] at hq'
    injection hq' with hqq
    subst hqq
    rw [hunf] at hunf'
    injection hunf' with huu
    subst huu
    exact compute_report_epoch_loop_oob_atomic caps src request
      request.epoch_ids.length unf request.epoch_ids st rel [] stF rel' oob
      e fids hnd he hloop hdry p hp
  · intro caps request st stF fids hnd h
    obtain ⟨pre, e, post, stPre, hsplit, hpre, hdry, hstF⟩ :=
      passive_loop_oob_split caps request.privacy_budget request.uris
        request.epoch_ids st stF fids h
    refine ⟨e, by rw [hsplit]; simp, ?_⟩
    intro p hp
    rw [hstF]
    refine passive_loop_preserves caps request.privacy_budget request.uris
      pre st stPre _ p.1 hpre ?_
    intro e' he' hc
    have hpe := filters_to_consume_epoch e request.privacy_budget []
      request.uris p hp
    rw [hpe] at hc
    rw [hsplit] at hnd
    exact (List.nodup_append.mp hnd).2.2
      (show e ∈ pre by rw [hc]; exact he') (by simp)
  · intro caps st fl
    exact deduct_budget_dry_continue_iff caps st fl

/-- C6: when `account_for_passive_privacy_loss` returns `OutOfBudget`, the
epoch list splits into a prefix committed in order, the failing epoch whose
dry run (against the post-prefix state) produced exactly the returned
filter ids, and unprocessed epochs; the returned storage is exactly the
post-prefix state (earlier commits are kept, nothing of the failing epoch
is mutated). -/
theorem passive_loss_oob_characterization {E U : Type} [DecidableEq E]
    [DecidableEq U] (caps : StaticCapacities)
    (request : PassivePrivacyLossRequest E U) (st stF : FilterStorage E U)
    (fids : List (FilterId E U))
    (h : account_for_passive_privacy_loss caps request st =
      some (stF, PdsFilterStatus.OutOfBudget fids)) :
    ∃ pre e post stPre,
      request.epoch_ids = pre ++ e :: post ∧
      account_for_passive_privacy_loss_loop caps request.privacy_budget
        request.uris pre st = some (stPre, PdsFilterStatus.Continue) ∧
      (deduct_budget caps stPre
          (filters_to_consume e request.privacy_budget [] request.uris)
          true).2 = PdsFilterStatus.OutOfBudget fids ∧
      stF = stPre ∧
      (request.epoch_ids.Nodup →
        ∀ p ∈ filters_to_consume e request.privacy_budget [] request.uris,
          FilterStorage.remaining_budget caps stF p.1 =
            FilterStorage.remaining_budget caps st p.1) := by
  obtain ⟨pre, e, post, stPre, hsplit, hpre, hdry, hstF⟩ :=
    passive_loop_oob_split caps request.privacy_budget request.uris
      request.epoch_ids st stF fids h
  refine ⟨pre, e, post, stPre, hsplit, hpre, hdry, hstF, ?_⟩
  intro hnd p hp
  rw [hstF]
  refine passive_loop_preserves caps request.privacy_budget request.uris
    pre st stPre _ p.1 hpre ?_
  intro e' he' hc
  have hpe := filters_to_consume_epoch e request.privacy_budget []
    request.uris p hp
  rw [hpe] at hc
  rw [hsplit] at hnd
  exact (List.nodup_append.mp hnd).2.2
      (show e ∈ pre by rw [hc]; exact he') (by simp)

set_option maxHeartbeats 1600000 in
/-- Witness for C6 at the concrete two-epoch passive request: epoch 1 is
committed, epoch 2's dry run fails on its drained `Nc` filter, the
returned storage keeps epoch 1's commit, and epoch 2's filters are
unchanged. -/
theorem passive_loss_oob_characterization_witness :
    ∃ pre e post stPre,
      c6_request.epoch_ids = pre ++ e :: post ∧
      account_for_passive_privacy_loss_loop mockCapacities
        c6_request.privacy_budget c6_request.uris pre c6_st0 =
        some (stPre, PdsFilterStatus.Continue) ∧
      (deduct_budget mockCapacities stPre
          (filters_to_consume e c6_request.privacy_budget []
            c6_request.uris) true).2 =
        PdsFilterStatus.OutOfBudget [FilterId.Nc 2 "adtech"] ∧
      c6_stF = stPre ∧
      (c6_request.epoch_ids.Nodup →
        ∀ p ∈ filters_to_consume e c6_request.privacy_budget []
            c6_request.uris,
          FilterStorage.remaining_budget mockCapacities c6_stF p.1 =
            FilterStorage.remaining_budget mockCapacities c6_st0 p.1) :=
  passive_loss_oob_characterization mockCapacities c6_request c6_st0 c6_stF
    [FilterId.Nc 2 "adtech"]
    (by
      norm_num +decide [account_for_passive_privacy_loss,
        account_for_passive_privacy_loss_loop, deduct_budget,
        deduct_budget_go, filters_to_consume, FilterStorage.can_consume,
        FilterStorage.try_consume, FilterStorage.get_filter_or_new,
        FilterStorage.get_filter, FilterStorage.set_filter, alInsert,
        alLookup, PureDPBudgetFilter.new, PureDPBudgetFilter.can_consume,
        PureDPBudgetFilter.try_consume, StaticCapacities.capacity,
        mockCapacities, c6_request, c6_st0, c6_stF, demoUris])

set_option maxHeartbeats 1600000 in
/-- Witness for C1 at concrete inputs: a `compute_report` run and a
passive run whose single epoch fails its dry run (loss 5 against
capacities nc = 1, qtrigger = 2) leave every filter of that epoch's set
untouched, and the dry-run/can-absorb equivalence instantiated at a
concrete filter set. -/
theorem atomic_two_phase_deduction_witness :
    (∀ p ∈ epoch_filter_set c1_request c1_src c1_rel (5 : ℚ)
        c1_request.epoch_ids.length 1,
      FilterStorage.remaining_budget mockCapacities
          ([] : FilterStorage ℕ String) p.1 =
        FilterStorage.remaining_budget mockCapacities [] p.1) ∧
    (∃ e ∈ c1p_request.epoch_ids,
      ∀ p ∈ filters_to_consume e c1p_request.privacy_budget []
          c1p_request.uris,
        FilterStorage.remaining_budget mockCapacities
            ([] : FilterStorage ℕ String) p.1 =
          FilterStorage.remaining_budget mockCapacities [] p.1) ∧
    ((deduct_budget mockCapacities ([] : FilterStorage ℕ String)
        [((FilterId.C 1 : FilterId ℕ String), PureDPBudget.Epsilon 5)]
        true).2 = PdsFilterStatus.Continue ↔
      ∀ p ∈ [((FilterId.C 1 : FilterId ℕ String), PureDPBudget.Epsilon 5)],
        FilterStorage.can_consume mockCapacities [] p.1 p.2 =
          FilterStatus.Continue) :=
  ⟨(@atomic_two_phase_deduction ℕ String ℕ ℚ _ _).1 mockCapacities c1_src
      c1_request [] c1_rel
      [("adtech", ⟨(5 : ℚ), 5,
        [FilterId.Nc 1 "adtech", FilterId.QTrigger 1 "shoes"]⟩)] []
      "adtech" 5 1 [FilterId.Nc 1 "adtech", FilterId.QTrigger 1 "shoes"]
      (by simp [c1_request]) (by simp [c1_request]) rfl
      (by norm_num +decide [c1_request, alLookup])
      (by
        norm_num +decide [compute_report_core, compute_report_epoch_loop,
          epoch_filter_set, compute_epoch_loss, compute_epoch_source_losses,
          filters_to_consume, deduct_budget, deduct_budget_go,
          FilterStorage.can_consume, FilterStorage.try_consume,
          FilterStorage.get_filter_or_new, FilterStorage.get_filter,
          FilterStorage.set_filter, alInsert, alLookup, alKeys,
          PureDPBudgetFilter.new, PureDPBudgetFilter.can_consume,
          PureDPBudgetFilter.try_consume, StaticCapacities.capacity,
          RelevantEvents.for_epoch, RelevantEvents.sources_for_epoch,
          RelevantEvents.drop_epoch, is_optimization_query,
          calculate_optimization_query, List.eraseDups, mockCapacities,
          c1_request, c1_rel, c1_src, demoUris, f64Epsilon])
      (by
        norm_num +decide [epoch_filter_set, compute_epoch_loss,
          compute_epoch_source_losses, filters_to_consume, deduct_budget,
          deduct_budget_go, FilterStorage.can_consume,
          FilterStorage.get_filter_or_new, FilterStorage.get_filter,
          alInsert, alLookup, PureDPBudgetFilter.new,
          PureDPBudgetFilter.can_consume, StaticCapacities.capacity,
          RelevantEvents.for_epoch, RelevantEvents.sources_for_epoch,
          List.eraseDups, mockCapacities, c1_request, c1_rel, c1_src,
          demoUris, f64Epsilon]),
   (@atomic_two_phase_deduction ℕ String ℕ ℚ _ _).2.1 mockCapacities
      c1p_request [] []
      [FilterId.Nc 1 "adtech", FilterId.QTrigger 1 "shoes"]
      (by simp [c1p_request])
      (by
        norm_num +decide [account_for_passive_privacy_loss,
          account_for_passive_privacy_loss_loop, deduct_budget,
          deduct_budget_go, filters_to_consume, FilterStorage.can_consume,
          FilterStorage.try_consume, FilterStorage.get_filter_or_new,
          FilterStorage.get_filter, FilterStorage.set_filter, alInsert,
          alLookup, PureDPBudgetFilter.new, PureDPBudgetFilter.can_consume,
          PureDPBudgetFilter.try_consume, StaticCapacities.capacity,
          mockCapacities, c1p_request, demoUris]),
   (@atomic_two_phase_deduction ℕ String ℕ ℚ _ _).2.2 mockCapacities []
      [((FilterId.C 1 : FilterId ℕ String), PureDPBudget.Epsilon 5)]⟩

/-- C10: when the post-drop query-compute result has at least 3 URI
entries (the optimization branch) but its bucket→intermediary mapping is
empty, `compute_report` returns the empty map — no report for the querier
nor for any intermediary — while keeping the storage produced by the
epoch loop (budget already deducted). -/
theorem optimization_query_empty_bucket_map {E U Ev R : Type}
    [DecidableEq E] [DecidableEq U] (caps : StaticCapacities) (src : Ev → U)
    (request : EpochReportRequest E U Ev R) (st : FilterStorage E U)
    (rel : RelevantEvents E Ev) (q : U) (unf fr : R)
    (stL : FilterStorage E U) (rel' : RelevantEvents E Ev)
    (oob : List (FilterId E U))
    (hq : request.report_uris.querier_uris = [q])
    (hunf : alLookup (request.compute_report rel).uri_report_map q =
      some unf)
    (hloop : compute_report_epoch_loop caps src request
      request.epoch_ids.length unf request.epoch_ids st rel [] =
      some (stL, rel', oob))
    (hfr : alLookup (request.compute_report rel').uri_report_map q =
      some fr)
    (hopt : is_optimization_query
      (request.compute_report rel').uri_report_map = true)
    (hbk : (request.compute_report rel').bucket_uri_map = []) :
    compute_report_core caps src request st rel = some ([], stL) := by
  unfold compute_report_core
  dsimp only
  rw [hq]
  simp only [List.length_cons, List.length_nil, List.head?_cons,
    Nat.lt_irrefl, gt_iff_lt, if_neg (by norm_num : ¬ (1 : ℕ) > 1)]
  rw [hunf]
  dsimp only
  rw [hloop]
  dsimp only
  rw [hfr]
  dsimp only
  rw [hopt]
  simp only [if_true]
  unfold calculate_optimization_query
  rw [hbk]
  simp

/-- Witness for C10 at the concrete empty-bucket-mapping request: the
returned map is empty although the querier's `Nc` filter went from 1 to
3/4 (budget was deducted). -/
theorem optimization_query_empty_bucket_map_witness :
    compute_report_core mockCapacities PpaEvent.source_uri
        c10_request.toEpochReportRequest [] c10_rel = some ([], c10_stF) ∧
    FilterStorage.remaining_budget mockCapacities c10_stF
        (FilterId.Nc 1 "adtech") = PureDPBudget.Epsilon (3 / 4) ∧
    FilterStorage.remaining_budget mockCapacities []
        (FilterId.Nc 1 "adtech") = PureDPBudget.Epsilon 1 :=
  ⟨optimization_query_empty_bucket_map mockCapacities PpaEvent.source_uri
      c10_request.toEpochReportRequest [] c10_rel "adtech" ⟨[(2, 100)]⟩
      ⟨[(2, 100)]⟩ c10_stF c10_rel [] rfl
      (by
        norm_num +decide [PpaHistogramRequest.toEpochReportRequest,
          PpaHistogramRequest.compute_report,
          PpaHistogramRequest.event_values,
          PpaHistogramRequest.filter_report_for_intermediary,
          PpaHistogramRequest.epoch_ids, ppa_find_last_touch,
          histogram_attribution_loop, alAddTo, alInsert, alLookup,
          List.range', c10_request, c10_rel, c10_e, c10_selector,
          demoEventUris])
      (by
        norm_num +decide [PpaHistogramRequest.toEpochReportRequest,
          PpaHistogramRequest.compute_report,
          PpaHistogramRequest.event_values,
          PpaHistogramRequest.filter_report_for_intermediary,
          PpaHistogramRequest.epoch_ids,
          PpaHistogramRequest.histogram_l1_sensitivity,
          ppa_find_last_touch, histogram_attribution_loop, alAddTo,
          compute_report_epoch_loop, epoch_filter_set, compute_epoch_loss,
          compute_epoch_source_losses, filters_to_consume, deduct_budget,
          deduct_budget_go, FilterStorage.can_consume,
          FilterStorage.try_consume, FilterStorage.get_filter_or_new,
          FilterStorage.get_filter, FilterStorage.set_filter, alInsert,
          alLookup, PureDPBudgetFilter.new, PureDPBudgetFilter.can_consume,
          PureDPBudgetFilter.try_consume, StaticCapacities.capacity,
          RelevantEvents.for_epoch, RelevantEvents.sources_for_epoch,
          RelevantEvents.drop_epoch, List.eraseDups, List.range',
          PpaEvent.source_uri, f64Epsilon, mockCapacities, c10_request,
          c10_rel, c10_e, c10_selector, c10_stF, demoEventUris])
      (by
        norm_num +decide [PpaHistogramRequest.toEpochReportRequest,
          PpaHistogramRequest.compute_report,
          PpaHistogramRequest.event_values,
          PpaHistogramRequest.filter_report_for_intermediary,
          PpaHistogramRequest.epoch_ids, ppa_find_last_touch,
          histogram_attribution_loop, alAddTo, alInsert, alLookup,
          List.range', c10_request, c10_rel, c10_e, c10_selector,
          demoEventUris])
      (by
        norm_num +decide [PpaHistogramRequest.toEpochReportRequest,
          PpaHistogramRequest.compute_report,
          PpaHistogramRequest.event_values,
          PpaHistogramRequest.filter_report_for_intermediary,
          PpaHistogramRequest.epoch_ids, ppa_find_last_touch,
          histogram_attribution_loop, alAddTo, alInsert, alLookup, alKeys,
          is_optimization_query, List.eraseDups, List.range', c10_request,
          c10_rel, c10_e, c10_selector, demoEventUris])
      rfl,
   by norm_num [FilterStorage.remaining_budget,
     FilterStorage.get_filter_or_new, FilterStorage.get_filter, alLookup,
     c10_stF],
   by norm_num [FilterStorage.remaining_budget,
     FilterStorage.get_filter_or_new, FilterStorage.get_filter, alLookup,
     PureDPBudgetFilter.new, StaticCapacities.capacity, mockCapacities]⟩

set_option maxHeartbeats 1600000 in
/-- C5, evaluated at the failing input: epoch 2 (attributed bucket 2,
mapped to `r2`) is dropped as out of budget, and the post-drop report
assigns bucket 1 (value 100) to `r1` and nothing to `r2`; yet the code
hands `r2` a `filtered_report` of `{2: 100}` — the *unfiltered*, pre-drop
entry — and `r1` an empty one. The fan-out reads
`unfiltered_result.uri_report_map` (`pds/core.rs` lines 290-303) instead
of the filtered result computed over surviving epochs. -/
theorem intermediary_fanout_uses_unfiltered_result :
    (compute_report_core mockCapacities PpaEvent.source_uri
        c5_request.toEpochReportRequest c5_st0 c5_rel).map
        (fun out => (alLookup out.1 "r1", alLookup out.1 "r2")) =
      some
        (some ⟨⟨[]⟩, ⟨[]⟩, [FilterId.Nc 2 "adtech"]⟩,
         some ⟨⟨[(2, 100)]⟩, ⟨[(2, 100)]⟩, [FilterId.Nc 2 "adtech"]⟩) ∧
    alLookup
        (c5_request.compute_report (c5_rel.drop_epoch 2)).uri_report_map
        "r1" = some ⟨[(1, 100)]⟩ ∧
    alLookup
        (c5_request.compute_report (c5_rel.drop_epoch 2)).uri_report_map
        "r2" = some ⟨[]⟩ := by
  refine ⟨?_, ?_, ?_⟩
  · norm_num +decide [compute_report_core, compute_report_epoch_loop,
      epoch_filter_set, compute_epoch_loss, compute_epoch_source_losses,
      filters_to_consume, deduct_budget, deduct_budget_go,
      FilterStorage.can_consume, FilterStorage.try_consume,
      FilterStorage.get_filter_or_new, FilterStorage.get_filter,
      FilterStorage.set_filter, alInsert, alLookup, alKeys,
      PureDPBudgetFilter.new, PureDPBudgetFilter.can_consume,
      PureDPBudgetFilter.try_consume, StaticCapacities.capacity,
      RelevantEvents.for_epoch, RelevantEvents.sources_for_epoch,
      RelevantEvents.drop_epoch, is_optimization_query,
      calculate_optimization_query, List.eraseDups, List.range',
      PpaHistogramRequest.toEpochReportRequest,
      PpaHistogramRequest.compute_report, PpaHistogramRequest.event_values,
      PpaHistogramRequest.filter_report_for_intermediary,
      PpaHistogramRequest.epoch_ids,
      PpaHistogramRequest.histogram_l1_sensitivity, ppa_find_last_touch,
      histogram_attribution_loop, alAddTo, PpaEvent.source_uri, f64Epsilon,
      mockCapacities, c5_request, c5_rel, c5_e1, c5_e2, c5_selector,
      c5_st0, demoEventUris]
  · norm_num +decide [PpaHistogramRequest.compute_report,
      PpaHistogramRequest.event_values,
      PpaHistogramRequest.filter_report_for_intermediary,
      PpaHistogramRequest.epoch_ids, ppa_find_last_touch,
      histogram_attribution_loop, alAddTo, alInsert, alLookup,
      RelevantEvents.for_epoch, RelevantEvents.drop_epoch, List.range',
      c5_request, c5_rel, c5_e1, c5_e2, c5_selector, demoEventUris]
  · norm_num +decide [PpaHistogramRequest.compute_report,
      PpaHistogramRequest.event_values,
      PpaHistogramRequest.filter_report_for_intermediary,
      PpaHistogramRequest.epoch_ids, ppa_find_last_touch,
      histogram_attribution_loop, alAddTo, alInsert, alLookup,
      RelevantEvents.for_epoch, RelevantEvents.drop_epoch, List.range',
      c5_request, c5_rel, c5_e1, c5_e2, c5_selector, demoEventUris]

end Pdslib
